import Mathlib

/-!
Verification development for the xmlang/xmlc compiler pipeline
(lexer, parser, code generator, assembler).

The C++ sources are shallowly embedded: C++ `std::string` becomes
`List Char`, machine integers become `Int`/`Nat` with explicit `% 2^w`
where conversions matter, fallible code returns `Except`/`Option`, and
the process-wide offset maps are threaded as explicit state.
-/

set_option maxRecDepth 8000

namespace XUtil

/-- View a Lean string literal as the character list a C++ `std::string` holds. -/
def str (s : String) : List Char := s.data

/-- Byte value of a character (ASCII in all inputs of interest). -/
def charByte (c : Char) : Nat := c.toNat

/-- `::isdigit` over ASCII. -/
def isDigitC (c : Char) : Bool := c.isDigit

/-- `::isalpha` over ASCII. -/
def isAlphaC (c : Char) : Bool := c.isAlpha

/-- `::isalnum` over ASCII (`std::isalpha || std::isdigit`). -/
def isAlnumC (c : Char) : Bool := c.isAlpha || c.isDigit

/-- The character `{`, kept as a named constant. -/
def braceL : Char := Char.ofNat 123

/-- The character `}`, kept as a named constant. -/
def braceR : Char := Char.ofNat 125

/-- Split a character list at every occurrence of `sep`. -/
def splitOnChar (sep : Char) : List Char → List (List Char)
  | [] => [[]]
  | c :: rest =>
    match splitOnChar sep rest with
    | [] => [[]]
    | l :: ls => if c = sep then [] :: l :: ls else (c :: l) :: ls

/-- Lines produced by a `std::getline` loop over a stream of `cs`:
`splitOnChar` except that a trailing newline yields no final empty line. -/
def getLines (cs : List Char) : List (List Char) :=
  if cs = [] then []
  else
    let ls := splitOnChar '\n' cs
    if ls.getLast? = some [] then ls.dropLast else ls

/-- `s.find_first_of(c)`: index of the first occurrence, if any. -/
def findChar (c : Char) : List Char → Option Nat
  | [] => none
  | d :: rest => if d = c then some 0 else (findChar c rest).map (· + 1)

/-- `s.substr(s.find_first_of(c) + 1)`.  When `c` is absent, `npos + 1`
wraps to `0`, so the whole string is returned. -/
def dropAfterChar (c : Char) (s : List Char) : List Char :=
  match findChar c s with
  | some i => s.drop (i + 1)
  | none => s

/-- `s.substr(0, s.find_first_of(c))` (the whole string when `c` is absent). -/
def takeBeforeChar (c : Char) (s : List Char) : List Char :=
  match findChar c s with
  | some i => s.take i
  | none => s

/-- `std::string::starts_with`. -/
def startsWithS (p s : List Char) : Bool := s.take p.length = p

/-- `std::string::ends_with` a single character. -/
def endsWithC (c : Char) (s : List Char) : Bool := s.getLast? = some c

/-- First whitespace-delimited word, as extracted by `stringstream >> word`. -/
def wordOf (s : List Char) : List Char :=
  (s.dropWhile Char.isWhitespace).takeWhile (fun c => ¬ c.isWhitespace)

/-- Digit run folded to a natural number. -/
def digitsVal (cs : List Char) : Nat :=
  (cs.takeWhile isDigitC).foldl (fun a c => a * 10 + (c.toNat - 48)) 0

/-- `istringstream >> (int)`: skip whitespace, optional sign, leading digits;
no digits yields 0. -/
def readInt (cs : List Char) : Int :=
  let cs := cs.dropWhile Char.isWhitespace
  match cs with
  | '-' :: rest => -(digitsVal rest : Int)
  | '+' :: rest => (digitsVal rest : Int)
  | _ => (digitsVal cs : Int)

/-- Decimal digits of `n`, most significant first (auxiliary, fuelled). -/
def natCharsAux : Nat → Nat → List Char → List Char
  | 0, _, acc => acc
  | fuel + 1, n, acc =>
    let d := Char.ofNat (48 + n % 10)
    if n < 10 then d :: acc else natCharsAux fuel (n / 10) (d :: acc)

/-- Decimal rendering of a natural number, as `fmt::format("{}", n)` prints it. -/
def natChars (n : Nat) : List Char := natCharsAux (n + 1) n []

/-- Index of the first element satisfying `p` (`std::find_if` distance). -/
def findIdxP {α : Type} (p : α → Bool) : List α → Option Nat
  | [] => none
  | x :: xs => if p x then some 0 else (findIdxP p xs).map (· + 1)

/-- Apply `f` to the element at index `i` (a `find_if` + in-place update). -/
def mapAtIdx {α : Type} : List α → Nat → (α → α) → List α
  | [], _, _ => []
  | x :: xs, 0, f => f x :: xs
  | x :: xs, n + 1, f => x :: mapAtIdx xs n f

/-- `container.insert(std::next(container.begin(), n), a)`. -/
def insertIdxN {α : Type} : List α → Nat → α → List α
  | l, 0, a => a :: l
  | [], _ + 1, _ => []
  | x :: xs, n + 1, a => x :: insertIdxN xs n a

/-- `int_2_bytes`: the four big-endian bytes of the two's-complement
32-bit image of `v`, as produced by the shift-and-mask code. -/
def int_2_bytes (v : Int) : List Nat :=
  let w := (v % (2 ^ 32 : Int)).toNat
  [w / 2 ^ 24 % 256, w / 2 ^ 16 % 256, w / 2 ^ 8 % 256, w % 256]

end XUtil

namespace Kubo

/-!
Embedding of `src/xmlc/source/codegen/Assembler.cpp`.
The process-wide `codeSegmentOffsets_g` map is threaded explicitly;
`std::map::insert` keeps an existing entry, `at` on a missing key throws
(mapped to `Except.error`).
-/

open XUtil

/-- `enum class Opcode { CALL, LOAD, POP, PUSH, RET, STORE }` as numeric values. -/
def opcodeCALL : Nat := 0
def opcodeLOAD : Nat := 1
def opcodePOP : Nat := 2
def opcodePUSH : Nat := 3
def opcodeRET : Nat := 4
def opcodeSTORE : Nat := 5

/-- `enum class CallMode { EXTRINSIC, INTRINSIC }`. -/
def callEXTRINSIC : Nat := 0
def callINTRINSIC : Nat := 1

/-- The `codeSegmentOffsets_g` map: association list keyed by symbol name. -/
abbrev Offs := List (List Char × Int)

/-- `std::map::insert`: keeps the existing binding when the key is present. -/
def insertOff (k : List Char) (v : Int) (m : Offs) : Offs :=
  match m with
  | [] => [(k, v)]
  | (k', v') :: rest => if k' = k then (k', v') :: rest else (k', v') :: insertOff k v rest

/-- `std::map::contains` / lookup used by `at`. -/
def lookupOff (k : List Char) : Offs → Option Int
  | [] => none
  | (k', v') :: rest => if k' = k then some v' else lookupOff k rest

/-- `assemble_data_segment`: `.data` header, one skipped line, then
`<size> <text>` entries encoded as 4 big-endian bytes plus the raw text. -/
def assemble_data_segment (code : List Char) : Except (List Char) (List Nat) :=
  if code = [] then .ok []
  else
    match getLines code with
    | [] => .error (str "unexpected segment")
    | l0 :: rest =>
      if l0 ≠ str ".data" then .error (str "unexpected segment")
      else
        .ok ((rest.drop 1).foldl (fun bytes entry =>
          let size := readInt (takeBeforeChar ' ' entry)
          let text := dropAfterChar ' ' entry
          bytes ++ int_2_bytes size ++ text.map charByte) [])

/-- Intrinsic ordinals (`PRINT = 0, PRINTLN = 1`), compared after `::toupper`. -/
def intrinsicOrdinal (name : List Char) : Option Nat :=
  let upper := name.map Char.toUpper
  if upper = str "PRINT" then some 0
  else if upper = str "PRINTLN" then some 1
  else none

/-- `assemble_call`: extrinsic when the operand is a known code-segment
symbol, otherwise the intrinsic ordinal (the `assert` on an unknown
intrinsic is mapped to `Except.error`). -/
def assemble_call (offs : Offs) (operand : List Char) : Except (List Char) (List Nat) :=
  match lookupOff operand offs with
  | some off => .ok [opcodeCALL * 8 + callEXTRINSIC, (off % (256 : Int)).toNat]
  | none =>
    match intrinsicOrdinal operand with
    | some ord => .ok [opcodeCALL * 8 + callINTRINSIC, ord]
    | none => .error (str "unknown intrinsic")

/-- `assemble_load`: source tag (`.data = 0`, `scope = 1`, otherwise global `2`)
and the full bracketed offset (all characters between `[` and the popped
final character). -/
def assemble_load (operands : List Char) : List Nat :=
  let offsetData := (dropAfterChar '[' operands).dropLast
  let offset := readInt offsetData
  let source :=
    let w := wordOf (takeBeforeChar '[' operands)
    if w = str ".data" then 0 else if w = str "scope" then 1 else 2
  [opcodeLOAD * 8, source] ++ int_2_bytes offset

/-- `assemble_pop`. -/
def assemble_pop : List Nat := [opcodePOP * 8]

/-- `assemble_push`. -/
def assemble_push (operand : List Char) : List Nat :=
  [opcodePUSH * 8] ++ int_2_bytes (readInt operand)

/-- `assemble_ret`. -/
def assemble_ret : List Nat := [opcodeRET * 8]

/-- `assemble_store`: destination tag (`scope = 0`, otherwise global `1`);
the offset is parsed from `operands.substr(operands.find_first_of('[')+1, 1)`,
i.e. from the single character following `[`. -/
def assemble_store (operands : List Char) : List Nat :=
  let offsetData :=
    match findChar '[' operands with
    | some i => (operands.drop (i + 1)).take 1
    | none => operands.take 1
  let offset := readInt offsetData
  let destination :=
    let w := wordOf (takeBeforeChar '[' operands)
    if w = str "scope" then 0 else 1
  [opcodeSTORE * 8, destination] ++ int_2_bytes offset

/-- One instruction line of `assemble_code_segment`'s inner loop. -/
def assemble_instruction (offs : Offs) (instruction : List Char) :
    Except (List Char) (List Nat) :=
  let opcode := takeBeforeChar ' ' instruction
  if ¬ (opcode = str "pop" ∨ opcode = str "ret") then
    let operands := dropAfterChar ' ' instruction
    if opcode = str "call" then assemble_call offs operands
    else if opcode = str "load" then .ok (assemble_load operands)
    else if opcode = str "push" then .ok (assemble_push operands)
    else if opcode = str "store" then .ok (assemble_store operands)
    else .error (str "unknown instruction")
  else if opcode = str "pop" then .ok assemble_pop
  else .ok assemble_ret

/-- The header/instruction loops of `assemble_code_segment`, fused into one
recursion.  In header mode (`inHeader = true`) each pulled line must be a
`function <name>` or `entrypoint` header; its starting byte offset is
recorded, the following line is skipped, and instruction mode processes
lines until a blank line hands control back to header mode. -/
def asmLoop : Bool → List (List Char) → List Nat → Offs → Except (List Char) (List Nat × Offs)
  | _, [], bytes, offs => .ok (bytes, offs)
  | true, h :: rest, bytes, offs =>
    if ¬ (startsWithS (str "function") h ∨ startsWithS (str "entrypoint") h) then
      .error (str "bad header")
    else
      let key := if startsWithS (str "function") h then dropAfterChar ' ' h else str "entrypoint"
      let offs' := insertOff key (Int.ofNat bytes.length) offs
      match rest with
      | [] => .ok (bytes, offs')
      | _ :: rest' => asmLoop false rest' bytes offs'
  | false, i :: rest, bytes, offs =>
    if i = [] then asmLoop true rest bytes offs
    else
      match assemble_instruction offs i with
      | .error e => .error e
      | .ok bs => asmLoop false rest (bytes ++ bs) offs

/-- `assemble_code_segment`: `.code` header, one skipped line, then the
header/instruction loops. -/
def assemble_code_segment (code : List Char) : Except (List Char) (List Nat × Offs) :=
  match getLines code with
  | [] => .error (str "unexpected segment")
  | l0 :: rest =>
    if l0 ≠ str ".code" then .error (str "unexpected segment")
    else asmLoop true (rest.drop 1) [] []

/-- The splitting loop of `assemble`: counts `line.size()` plus one byte per
non-empty line until a line starting with `.` (after at least one counted
byte) or the literal `.code` is reached. -/
def segmentSplit : List (List Char) → Nat → Option Nat
  | [], _ => none
  | l :: ls, b =>
    if (l.headD ' ' = '.' ∧ b > 0) ∨ l = str ".code" then some b
    else segmentSplit ls (b + l.length + (if l = [] then 0 else 1))

/-- The 22 header characters; copying the C literal and popping the final
`NUL` leaves exactly these bytes. -/
def kuboHeader : List Nat := (str "This is a kubo program").map charByte

/-- `assemble`: split the text into data and code segments, assemble both,
and lay out header, three big-endian words and both segments.  The final
state of `codeSegmentOffsets_g` is returned alongside the bytes. -/
def assemble (code : List Char) : Except (List Char) (List Nat × Offs) :=
  let seg : Except (List Char) (List Char × List Char) :=
    match segmentSplit (splitOnChar '\n' code) 0 with
    | none => .ok ([], [])
    | some b =>
      match findChar '.' (code.drop b) with
      | none => .error (str "no code segment")
      | some i => .ok (code.take b, (code.drop b).drop i)
  match seg with
  | .error e => .error e
  | .ok (dataSeg, codeSeg) =>
    match assemble_data_segment dataSeg with
    | .error e => .error e
    | .ok dataBytes =>
      match assemble_code_segment codeSeg with
      | .error e => .error e
      | .ok (codeBytes, offs) =>
        match lookupOff (str "entrypoint") offs with
        | none => .error (str "entrypoint missing")
        | some e =>
          .ok (kuboHeader ++ int_2_bytes 0 ++ int_2_bytes (Int.ofNat dataBytes.length)
                ++ int_2_bytes e ++ dataBytes ++ codeBytes, offs)

end Kubo

namespace KuboFacts

open XUtil Kubo

theorem int2bytes_length (v : Int) : (int_2_bytes v).length = 4 := rfl

theorem kuboHeader_length : kuboHeader.length = 22 := rfl

/-- C1: every binary image produced by `assemble` starts with the 22 ASCII
bytes "This is a kubo program" (none of them NUL), followed by a big-endian
u32 zero, a big-endian u32 holding the data-segment byte count, a big-endian
u32 holding `codeSegmentOffsets["entrypoint"]`, and then the data-segment
bytes followed by the code-segment bytes from offset 34 on. -/
theorem kubo_assemble_image_layout (code : List Char) (prog : List Nat) (offs : Offs)
    (h : assemble code = .ok (prog, offs)) :
    ∃ dataBytes codeBytes e,
      lookupOff (str "entrypoint") offs = some e ∧
      prog = kuboHeader ++ int_2_bytes 0 ++ int_2_bytes (Int.ofNat dataBytes.length)
             ++ int_2_bytes e ++ dataBytes ++ codeBytes ∧
      prog.take 22 = kuboHeader ∧
      (prog.drop 22).take 4 = int_2_bytes 0 ∧
      (prog.drop 26).take 4 = int_2_bytes (Int.ofNat dataBytes.length) ∧
      (prog.drop 30).take 4 = int_2_bytes e ∧
      prog.drop 34 = dataBytes ++ codeBytes ∧
      (∀ b ∈ prog.take 22, b ≠ 0) := by
  unfold assemble at h
  set seg : Except (List Char) (List Char × List Char) :=
    match segmentSplit (splitOnChar '\n' code) 0 with
    | none => .ok ([], [])
    | some b =>
      match findChar '.' (code.drop b) with
      | none => .error (str "no code segment")
      | some i => .ok (code.take b, (code.drop b).drop i) with hseg
  clear_value seg
  match seg with
  | .error e => simp at h
  | .ok (dataSeg, codeSeg) =>
    simp only at h
    match hd : assemble_data_segment dataSeg with
    | .error e => rw [hd] at h; simp at h
    | .ok dataBytes =>
      rw [hd] at h
      match hc : assemble_code_segment codeSeg with
      | .error e => rw [hc] at h; simp at h
      | .ok (codeBytes, offs') =>
        rw [hc] at h
        simp only at h
        match hl : lookupOff (str "entrypoint") offs' with
        | none => rw [hl] at h; simp at h
        | some e =>
          rw [hl] at h
          simp only [Except.ok.injEq, Prod.mk.injEq] at h
          obtain ⟨hprog, hoffs⟩ := h
          subst hoffs
          subst hprog
          have dH : ∀ ys : List Nat, (kuboHeader ++ ys).drop 22 = ys :=
            fun ys => List.drop_left' kuboHeader_length
          have tH : ∀ ys : List Nat, (kuboHeader ++ ys).take 22 = kuboHeader :=
            fun ys => List.take_left' kuboHeader_length
          have d4 : ∀ (v : Int) (ys : List Nat), (int_2_bytes v ++ ys).drop 4 = ys :=
            fun v ys => List.drop_left' (int2bytes_length v)
          have t4 : ∀ (v : Int) (ys : List Nat), (int_2_bytes v ++ ys).take 4 = int_2_bytes v :=
            fun v ys => List.take_left' (int2bytes_length v)
          have e26 : ∀ l : List Nat, l.drop 26 = (l.drop 22).drop 4 := by
            intro l; rw [List.drop_drop]
          have e30 : ∀ l : List Nat, l.drop 30 = ((l.drop 22).drop 4).drop 4 := by
            intro l; rw [List.drop_drop, List.drop_drop]
          have e34 : ∀ l : List Nat, l.drop 34 = (((l.drop 22).drop 4).drop 4).drop 4 := by
            intro l; rw [List.drop_drop, List.drop_drop, List.drop_drop]
          refine ⟨dataBytes, codeBytes, e, hl, rfl, ?_, ?_, ?_, ?_, ?_, ?_⟩ <;>
            simp only [List.append_assoc]
          · rw [tH]
          · rw [dH, t4]
          · rw [e26, dH, d4, t4]
          · rw [e30, dH, d4, d4, t4]
          · rw [e34, dH, d4, d4, d4]
          · rw [tH]; decide

/-- Closed instance of C1 at a concrete assembly text. -/
theorem kubo_assemble_image_layout_witness :
    ∃ dataBytes codeBytes e,
      lookupOff (str "entrypoint") [(str "entrypoint", (0 : Int))] = some e ∧
      (kuboHeader ++ int_2_bytes 0 ++ int_2_bytes (Int.ofNat ([] : List Nat).length)
        ++ int_2_bytes 0 ++ [] ++ [opcodeRET * 8]
        : List Nat) = kuboHeader ++ int_2_bytes 0 ++ int_2_bytes (Int.ofNat dataBytes.length)
             ++ int_2_bytes e ++ dataBytes ++ codeBytes ∧
      ((kuboHeader ++ int_2_bytes 0 ++ int_2_bytes (Int.ofNat ([] : List Nat).length)
        ++ int_2_bytes 0 ++ [] ++ [opcodeRET * 8] : List Nat)).take 22 = kuboHeader ∧
      (((kuboHeader ++ int_2_bytes 0 ++ int_2_bytes (Int.ofNat ([] : List Nat).length)
        ++ int_2_bytes 0 ++ [] ++ [opcodeRET * 8] : List Nat)).drop 22).take 4 = int_2_bytes 0 ∧
      (((kuboHeader ++ int_2_bytes 0 ++ int_2_bytes (Int.ofNat ([] : List Nat).length)
        ++ int_2_bytes 0 ++ [] ++ [opcodeRET * 8] : List Nat)).drop 26).take 4
        = int_2_bytes (Int.ofNat dataBytes.length) ∧
      (((kuboHeader ++ int_2_bytes 0 ++ int_2_bytes (Int.ofNat ([] : List Nat).length)
        ++ int_2_bytes 0 ++ [] ++ [opcodeRET * 8] : List Nat)).drop 30).take 4 = int_2_bytes e ∧
      ((kuboHeader ++ int_2_bytes 0 ++ int_2_bytes (Int.ofNat ([] : List Nat).length)
        ++ int_2_bytes 0 ++ [] ++ [opcodeRET * 8] : List Nat)).drop 34 = dataBytes ++ codeBytes ∧
      (∀ b ∈ ((kuboHeader ++ int_2_bytes 0 ++ int_2_bytes (Int.ofNat ([] : List Nat).length)
        ++ int_2_bytes 0 ++ [] ++ [opcodeRET * 8] : List Nat)).take 22, b ≠ 0) :=
  kubo_assemble_image_layout (str ".code\n\nentrypoint\n\nret")
    (kuboHeader ++ int_2_bytes 0 ++ int_2_bytes (Int.ofNat ([] : List Nat).length)
      ++ int_2_bytes 0 ++ [] ++ [opcodeRET * 8])
    [(str "entrypoint", (0 : Int))] (by rfl)

/-- C6 (code bug): on the line `store scope[12]` the assembler emits the
offset `1`, not `12`: `assemble_store` parses the offset from
`operands.substr(find('[') + 1, 1)`, i.e. from the single character after
`[`, so any multi-digit offset is truncated to its first digit (contrast
`assemble_load`, which takes everything up to the closing bracket). -/
theorem kubo_assemble_store_truncates_offset :
    assemble_instruction [] (str "store scope[12]")
      = .ok [opcodeSTORE * 8, 0, 0, 0, 0, 1] ∧
    XUtil.int_2_bytes 12 ≠ [0, 0, 0, 1] := by
  constructor
  · rfl
  · decide

end KuboFacts

namespace XmlcCG

/-!
Embedding of `src/xmlc/source/codegen/Compiler.cpp` (`generate_data_segment`).
The AST mirrors the node shapes this file manipulates: `Node::Type` is
STATEMENT / EXPRESSION / DECLARATION; statements are CALL, LET, RETURN, IF;
expressions are ARITHMETIC, LOGICAL, ARG, CALL, LITERAL; all declarations
expose a `scope` child list.  `unique_ptr` children that may be null are
`Option`s; dereferencing null, and a failed `assert`, map to `Except.error`.
The `dataSegmentOffsets_g` map and the function-local static byte counter
are threaded as explicit state.
-/

open XUtil

inductive CNode where
  | callStmt (arguments : List CNode)
  | letStmt (name type : List Char) (value : Option CNode)
  | retStmt (type : List Char) (value : Option CNode)
  | ifStmt
  | arithmeticExpr (value : Option CNode)
  | logicalExpr (value : Option CNode)
  | argExpr (value : Option CNode)
  | callExpr (who : List Char) (arguments : List CNode)
  | literalExpr (value : List Char)
  | decl (scope : List CNode)

/-- State of the two function-local/global statics used by
`generate_data_segment`. -/
structure GState where
  offsets : Kubo.Offs
  bytes : Int
deriving DecidableEq

/-- `"${"`, the opening of an interpolation. -/
def interpOpen : List Char := ['$', braceL]

/-- `std::all_of(value.begin(), value.end(), ::isdigit)`. -/
def allDigits (v : List Char) : Bool := v.all isDigitC

/-- `value.starts_with("${") && value.ends_with('}')`. -/
def bareInterp (v : List Char) : Bool := startsWithS interpOpen v && endsWithC braceR v

/-- A `\w` character of the interpolation pattern `(\$\{([\w]*)\})`. -/
def isWordC (c : Char) : Bool := isAlnumC c || c = '_'

/-- Leftmost match of `(\$\{([\w]*)\})` in a character region: offset of the
match's start and the full match's length (ident length + 3).  Greedy `\w*`
cannot backtrack usefully before `\}`, so the maximal word run decides. -/
def findInterp : List Char → Option (Nat × Nat)
  | [] => none
  | c :: rest =>
    if c = '$' then
      match rest with
      | [] => none
      | b :: rest2 =>
        if b = braceL then
          let w := rest2.takeWhile isWordC
          if (rest2.drop w.length).head? = some braceR then some (0, w.length + 3)
          else (findInterp rest).map (fun q => (q.1 + 1, q.2))
        else (findInterp rest).map (fun q => (q.1 + 1, q.2))
    else (findInterp rest).map (fun q => (q.1 + 1, q.2))

/-- The in-place `value.replace` regex loop of Compiler.cpp:106-112.
`std::sregex_iterator::operator++` resumes from the previous match's END
pointer while `value.replace` has already shifted the tail left by
`match length - 2`, so the characters now occupying the replaced span's old
positions are skipped; the iterator also keeps the ORIGINAL end pointer, so
the search runs over the terminator and the stale bytes the in-place shift
leaves behind (libstdc++: positions past the new length retain their old
values, with `'\0'` written at the new length).  `buf` is the full
original-length buffer, `L` the live string's length, `r` the stale resume
offset.  A match not fully inside the live string makes `replace` throw or
grow the string over invalidated iterators: modelled as the error channel. -/
def staleRewriteLoop : Nat → List Char → Nat → Nat →
    Except (List Char) (List Char)
  | 0, _, _, _ => .error (str "fuel")
  | fuel + 1, buf, L, r =>
    match findInterp (buf.drop r) with
    | none => .ok (buf.take L)
    | some (off, m) =>
      let p := r + off
      if p + m ≤ L then
        let newStr := buf.take p ++ [braceL, braceR] ++ (buf.drop (p + m)).take (L - p - m)
        let L2 := L - (m - 2)
        staleRewriteLoop fuel (newStr ++ Char.ofNat 0 :: buf.drop (L2 + 1)) L2 (p + m)
      else .error (str "regex replace out of range")

/-- The rewrite loop run on a literal.  Each iteration shortens the live
string, so `length + 1` units of fuel always suffice. -/
def rewriteInterp (v : List Char) : Except (List Char) (List Char) :=
  staleRewriteLoop (v.length + 1) v v.length 0

/-- `fmt::format("{} {}", value.size(), value)`. -/
def sizeEntry (v : List Char) : List Char := natChars v.length ++ ' ' :: v

mutual

/-- `generate_data_segment`, case by case over the node. -/
def generate_data_segment : CNode → GState → Except (List Char) (List Char × GState)
  | .callStmt arguments, st => genJoin arguments [] [] st
  | .letStmt name type value, st =>
    if type ≠ str "string" then .ok ([], st)
    else
      match value with
      | none => .error (str "null letStmt value")
      | some child =>
        match generate_data_segment child st with
        | .error e => .error e
        | .ok (v, st1) =>
          .ok (sizeEntry v,
            ⟨Kubo.insertOff name st1.bytes st1.offsets, st1.bytes + 4 + v.length⟩)
  | .retStmt type value, st =>
    if type = str "none" then .ok ([], st)
    else
      match value with
      | none => .error (str "null retStmt value")
      | some child =>
        match generate_data_segment child st with
        | .error e => .error e
        | .ok (v, st1) =>
          if v = [] then .ok ([], st1)
          else
            let offsets := if type = str "string"
              then Kubo.insertOff v st1.bytes st1.offsets else st1.offsets
            .ok (sizeEntry v, ⟨offsets, st1.bytes + 4 + v.length⟩)
  | .ifStmt, _st => .ok ([], _st)
  | .arithmeticExpr _, _ => .error (str "UNREACHABLE")
  | .logicalExpr _, _ => .error (str "UNREACHABLE")
  | .argExpr value, st =>
    match value with
    | none => .error (str "null argExpr value")
    | some child =>
      match generate_data_segment child st with
      | .error e => .error e
      | .ok (v, st1) =>
        match child with
        | .literalExpr _ =>
          if ¬ (allDigits v || bareInterp v) then
            let st2 : GState :=
              ⟨Kubo.insertOff v st1.bytes st1.offsets, st1.bytes + 4 + v.length⟩
            match rewriteInterp v with
            | .error e => .error e
            | .ok w => .ok (sizeEntry w, st2)
          else .ok ([], st1)
        | .arithmeticExpr _ | .logicalExpr _ | .argExpr _ | .callExpr _ _ => .ok (v, st1)
        | _ => .error (str "non-expression argExpr child")
  | .callExpr _ arguments, st => genJoin arguments [] [] st
  | .literalExpr value, st =>
    if bareInterp value then .ok ([], st) else .ok (value, st)
  | .decl scope, st => genJoin scope [] [] st

/-- The shared child loop: children whose generated text is empty are
skipped, the rest are joined with `"\n"`. -/
def genJoin : List CNode → List Char → List Char → GState →
    Except (List Char) (List Char × GState)
  | [], code, _, st => .ok (code, st)
  | child :: rest, code, pfx, st =>
    match generate_data_segment child st with
    | .error e => .error e
    | .ok (v, st1) =>
      if v = [] then genJoin rest code pfx st1
      else genJoin rest (code ++ pfx ++ v) (str "\n") st1

end

end XmlcCG

namespace XmlcCGFacts

open XUtil XmlcCG

/-- A string literal with a non-bare interpolation: `"a${x}b"`. -/
def c5lit : List Char := ['a', '$', braceL, 'x', braceR, 'b']

/-- A literal with two adjacent interpolations: `"a${x}${y}b"`. -/
def c5lit2 : List Char :=
  ['a', '$', braceL, 'x', braceR, '$', braceL, 'y', braceR, 'b']

/-- The text `"a{}${y}b"` that the stale-iterator loop actually stores for
`c5lit2`: the second interpolation, starting where the first match ended in
pre-shrink coordinates, is skipped. -/
def c5lit2kept : List Char :=
  ['a', braceL, braceR, '$', braceL, 'y', braceR, 'b']

/-- C5 (counterexample): on the `arg` literal `"a${x}b"` the stored entry is
`"4 a{}b"` (size 4), but the byte counter advances from 0 to 10 = 4 + 6,
i.e. by 4 plus the PRE-rewrite length, not by 4 plus the stored length; on
`"a${x}${y}b"` the stored entry is `"8 a{}${y}b"` — the second
interpolation is NOT rewritten (the resumed `sregex_iterator` skips it
after the in-place shrink), refuting the claim's "each ${ident} rewritten";
and a `let` of type `string` stores the literal with no rewriting at all. -/
theorem xmlc_data_entry_claim_counterexample :
    generate_data_segment (.argExpr (some (.literalExpr c5lit))) ⟨[], 0⟩
      = .ok (['4', ' ', 'a', braceL, braceR, 'b'], ⟨[(c5lit, 0)], 10⟩) ∧
    (10 : Int) ≠ 0 + (4 + ((['a', braceL, braceR, 'b'] : List Char).length : Int)) ∧
    generate_data_segment (.argExpr (some (.literalExpr c5lit2))) ⟨[], 0⟩
      = .ok ('8' :: ' ' :: c5lit2kept, ⟨[(c5lit2, 0)], 14⟩) ∧
    rewriteInterp c5lit2 = .ok c5lit2kept ∧
    c5lit2kept ≠ ['a', braceL, braceR, braceL, braceR, 'b'] ∧
    generate_data_segment (.letStmt (str "s") (str "string") (some (.literalExpr c5lit))) ⟨[], 0⟩
      = .ok (['6', ' '] ++ c5lit, ⟨[(str "s", 0)], 10⟩) ∧
    rewriteInterp c5lit = .ok ['a', braceL, braceR, 'b'] ∧
    (['a', braceL, braceR, 'b'] : List Char) ≠ c5lit := by
  refine ⟨rfl, by decide, rfl, rfl, by decide, rfl, rfl, by decide⟩

/-- C5 (amended): every emitted data-segment entry has the form
`<size> <text>` with `size` equal to the stored text's length.  For an
`arg` literal the stored text is whatever the stale-iterator replace loop
produces (the FIRST interpolation becomes `{}`; a later one is skipped when
it starts within the span the in-place shrink shifted under the resumed
iterator), while the byte counter advances by `4 +` the length of the
PRE-rewrite literal and the offset map records the pre-rewrite literal.
`let` and `return` entries store the literal unmodified, so for them the
advance `4 + length` coincides with the stored length. -/
theorem xmlc_data_entry_shape (st : GState) (name v : List Char)
    (hd : ¬ allDigits v) (hi : ¬ bareInterp v) :
    (∀ w, rewriteInterp v = .ok w →
      generate_data_segment (.argExpr (some (.literalExpr v))) st
        = .ok (natChars w.length ++ ' ' :: w,
               ⟨Kubo.insertOff v st.bytes st.offsets, st.bytes + 4 + v.length⟩)) ∧
    generate_data_segment (.letStmt name (str "string") (some (.literalExpr v))) st
      = .ok (natChars v.length ++ ' ' :: v,
             ⟨Kubo.insertOff name st.bytes st.offsets, st.bytes + 4 + v.length⟩) ∧
    (v ≠ [] → generate_data_segment (.retStmt (str "string") (some (.literalExpr v))) st
      = .ok (natChars v.length ++ ' ' :: v,
             ⟨Kubo.insertOff v st.bytes st.offsets, st.bytes + 4 + v.length⟩)) := by
  refine ⟨?_, ?_, ?_⟩
  · intro w hw
    simp [generate_data_segment, hd, hi, sizeEntry, hw]
  · simp [generate_data_segment, hi, sizeEntry]
  · intro hne
    simp [generate_data_segment, hi, hne, sizeEntry]
    decide

/-- Closed instance of the amended C5 at the literal `"hi there"`. -/
theorem xmlc_data_entry_shape_witness :
    generate_data_segment (.argExpr (some (.literalExpr (str "hi there")))) ⟨[], 0⟩
      = .ok (natChars (str "hi there").length ++ ' ' :: str "hi there",
             ⟨Kubo.insertOff (str "hi there") (0 : Int) [],
              (0 : Int) + 4 + (str "hi there").length⟩) ∧
    generate_data_segment (.letStmt (str "s") (str "string")
        (some (.literalExpr (str "hi there")))) ⟨[], 0⟩
      = .ok (natChars (str "hi there").length ++ ' ' :: str "hi there",
             ⟨Kubo.insertOff (str "s") (0 : Int) [],
              (0 : Int) + 4 + (str "hi there").length⟩) ∧
    (str "hi there" ≠ [] → generate_data_segment (.retStmt (str "string")
        (some (.literalExpr (str "hi there")))) ⟨[], 0⟩
      = .ok (natChars (str "hi there").length ++ ' ' :: str "hi there",
             ⟨Kubo.insertOff (str "hi there") (0 : Int) [],
              (0 : Int) + 4 + (str "hi there").length⟩)) :=
  ⟨(xmlc_data_entry_shape ⟨[], 0⟩ (str "s") (str "hi there")
      (by decide) (by decide)).1 (str "hi there") (by rfl),
   (xmlc_data_entry_shape ⟨[], 0⟩ (str "s") (str "hi there")
      (by decide) (by decide)).2.1,
   (xmlc_data_entry_shape ⟨[], 0⟩ (str "s") (str "hi there")
      (by decide) (by decide)).2.2⟩

end XmlcCGFacts

namespace Xmlang

/-!
Embedding of `src/xmlang/source/Lexer.cpp` and the token model of
`src/xmlang/include/xmlang/Lexer.hpp`.  `std::vector::at` out-of-range
throws are mapped to `Except.error (str "out_of_range")`; the path
component of `location` is dropped (it is stamped with the same input
path on every token).
-/

open XUtil

inductive TokType where
  | LEFT_ANGLE | RIGHT_ANGLE | QUOTE | SLASH | EQUAL
  | KEYWORD | LITERAL | IDENTIFIER | END_OF_FILE
deriving DecidableEq

structure Token where
  data : List Char
  type : TokType
  line : Nat
  column : Nat
  depth : Nat
deriving DecidableEq

def KEYWORDS : List (List Char) :=
  [str "arg", str "call", str "function", str "let", str "program",
   str "return", str "class", str "new", str "ctor", str "dtor"]

/-- The leading-space loop: number of consecutive `' '` from index `i`. -/
def countSpacesFrom (line : List Char) (i : Nat) : Nat :=
  ((line.drop i).takeWhile (fun c => c = ' ')).length

/-- The shared run-consuming loop of `next_token`: append the character at
the cursor, stop before a stop character or at the end of the line; returns
the collected run together with the index of its last character. -/
def consumeRun (line : List Char) (stops : Char → Bool) : Nat → Nat → (List Char × Nat)
  | 0, cursor => ([], cursor)
  | fuel + 1, cursor =>
    match line.get? cursor with
    | none => ([], cursor)
    | some ch =>
      match line.get? (cursor + 1) with
      | none => ([ch], cursor)
      | some nxt =>
        if stops nxt then ([ch], cursor)
        else
          let (d, e) := consumeRun line stops fuel (cursor + 1)
          (ch :: d, e)

/-- One iteration step of `next_token`'s cursor loop (fuelled; the fuel
bounds the number of iterations and `line.length + 1` always suffices). -/
def scanLine (line : List Char) : Nat → Nat → Nat → Except (List Char) (List Token)
  | 0, _, _ => .error (str "fuel")
  | fuel + 1, cursor, depth =>
    if cursor < line.length then
      let sp := countSpacesFrom line cursor
      let c1 := cursor + sp
      let depth := if sp % 4 = 0 then depth + sp / 4 else depth
      match line.get? c1 with
      | none => .error (str "out_of_range")
      | some ch =>
        if ch = '<' then
          match scanLine line fuel (c1 + 1) depth with
          | .error e => .error e
          | .ok ts => .ok (⟨[ch], .LEFT_ANGLE, 0, c1, depth⟩ :: ts)
        else if ch = '>' then
          match line.get? (c1 + 1) with
          | none => .error (str "out_of_range")
          | some nxt =>
            if ¬ (isAlphaC nxt || isDigitC nxt) then
              match scanLine line fuel (c1 + 1) depth with
              | .error e => .error e
              | .ok ts => .ok (⟨[ch], .RIGHT_ANGLE, 0, c1, depth⟩ :: ts)
            else
              let (data, e) := consumeRun line (fun c => c = '<' || c = '>')
                line.length (c1 + 1)
              match scanLine line fuel (e + 1) depth with
              | .error er => .error er
              | .ok ts =>
                .ok (⟨[ch], .RIGHT_ANGLE, 0, c1, depth⟩ ::
                  (if data ≠ [] then (⟨data, .LITERAL, 0, e, depth⟩ : Token) :: ts else ts))
        else if ch = '/' then
          match scanLine line fuel (c1 + 1) depth with
          | .error e => .error e
          | .ok ts => .ok (⟨[ch], .SLASH, 0, c1, depth⟩ :: ts)
        else if ch = '=' then
          match scanLine line fuel (c1 + 1) depth with
          | .error e => .error e
          | .ok ts => .ok (⟨[ch], .EQUAL, 0, c1, depth⟩ :: ts)
        else if ch = '"' then
          match line.get? (c1 + 1) with
          | none => .error (str "out_of_range")
          | some nxt =>
            if ¬ (isAlphaC nxt || nxt = '$' || nxt = braceL || nxt = braceR) then
              match scanLine line fuel (c1 + 1) depth with
              | .error e => .error e
              | .ok ts => .ok (⟨[ch], .QUOTE, 0, c1, depth⟩ :: ts)
            else
              let (data, e) := consumeRun line (fun c => c = '"') line.length (c1 + 1)
              match scanLine line fuel (e + 1) depth with
              | .error er => .error er
              | .ok ts =>
                .ok (⟨[ch], .QUOTE, 0, c1, depth⟩ :: (⟨data, .LITERAL, 0, e, depth⟩ : Token) :: ts)
        else
          let (data, e) := consumeRun line
            (fun c => c = ' ' || c = '=' || c = '<' || c = '>' || c = '"') line.length c1
          let ty : TokType := if data ∈ KEYWORDS then .KEYWORD else .IDENTIFIER
          match scanLine line fuel (e + 1) depth with
          | .error er => .error er
          | .ok ts => .ok (⟨data, ty, 0, e, depth⟩ :: ts)
    else .ok []

/-- `next_token` on one line. -/
def next_token (line : List Char) : Except (List Char) (List Token) :=
  scanLine line (line.length + 1) 0 0

/-- The per-line loop of `tokenize`: tokens are stamped with their line
number and appended in source order. -/
def tokenizeLinesGo : List (List Char) → Nat → List Token →
    Except (List Char) (List Token)
  | [], _, acc => .ok acc
  | l :: rest, n, acc =>
    match next_token l with
    | .error e => .error e
    | .ok ts => tokenizeLinesGo rest (n + 1) (acc ++ ts.map (fun t => { t with line := n }))

/-- `lineNumber - 1` in `size_t` arithmetic (wraps at zero). -/
def eofLine (numLines : Nat) : Nat := (numLines + (2 ^ 64 - 1)) % 2 ^ 64

/-- The token `tokenize` appends after the line loop. -/
def eofToken (numLines : Nat) : Token :=
  ⟨str "EOF", .END_OF_FILE, eofLine numLines, 0, 0⟩

/-- `tokenize` before the final `std::reverse`: all line tokens in source
order followed by the single `END_OF_FILE` token. -/
def tokenizePre (lines : List (List Char)) : Except (List Char) (List Token) :=
  match tokenizeLinesGo lines 0 [] with
  | .error e => .error e
  | .ok ts => .ok (ts ++ [eofToken lines.length])

/-- `tokenize`: the emitted sequence, reversed. -/
def tokenize (lines : List (List Char)) : Except (List Char) (List Token) :=
  match tokenizePre lines with
  | .error e => .error e
  | .ok ts => .ok ts.reverse

end Xmlang

namespace XmlangLexFacts

open XUtil Xmlang

theorem scanLine_no_eof (line : List Char) :
    ∀ fuel cursor depth ts, scanLine line fuel cursor depth = .ok ts →
      ∀ t ∈ ts, t.type ≠ TokType.END_OF_FILE := by
  intro fuel
  induction fuel with
  | zero => intro c d ts h; simp [scanLine] at h
  | succ n ih =>
    intro c d ts h
    rw [scanLine] at h
    dsimp only at h
    repeat' split at h
    all_goals (try (exfalso; exact Except.noConfusion h))
    all_goals injection h with h
    all_goals subst h
    all_goals (try (intro t ht; exact absurd ht (List.not_mem_nil t)))
    all_goals simp only [List.forall_mem_cons]
    all_goals refine ⟨by simp, ?_⟩
    all_goals
      first
      | exact ih _ _ _ (by assumption)
      | refine ⟨by simp, ih _ _ _ (by assumption)⟩

theorem tokenizeLinesGo_no_eof :
    ∀ (lines : List (List Char)) (n : Nat) (acc ts : List Token),
      (∀ t ∈ acc, t.type ≠ TokType.END_OF_FILE) →
      tokenizeLinesGo lines n acc = .ok ts →
      ∀ t ∈ ts, t.type ≠ TokType.END_OF_FILE := by
  intro lines
  induction lines with
  | nil =>
    intro n acc ts hacc h
    simp only [tokenizeLinesGo, Except.ok.injEq] at h
    subst h; exact hacc
  | cons l rest ih =>
    intro n acc ts hacc h
    rw [tokenizeLinesGo] at h
    split at h
    · exact absurd h (by simp)
    case h_2 ts0 hts0 =>
      refine ih _ _ _ ?_ h
      intro t ht
      rcases List.mem_append.mp ht with hin | hin
      · exact hacc t hin
      · obtain ⟨t0, ht0, rfl⟩ := List.mem_map.mp hin
        exact scanLine_no_eof l _ _ _ _ hts0 t0 ht0

/-- C9: whenever `tokenize` returns a token list, the pre-reversal emission
order ends with the unique `END_OF_FILE` token, placed at line index
`last_line` (the number of lines minus one), column 0, depth 0; no other
`END_OF_FILE` token occurs, and the returned list is that sequence
reversed. -/
theorem xmlang_tokenize_single_eof (lines : List (List Char)) (ts : List Token)
    (h0 : lines ≠ []) (h1 : lines.length < 2 ^ 64)
    (h : tokenizePre lines = .ok ts) :
    ts.getLast? = some ⟨str "EOF", .END_OF_FILE, lines.length - 1, 0, 0⟩ ∧
    (ts.filter (fun t => t.type = TokType.END_OF_FILE)).length = 1 ∧
    tokenize lines = .ok ts.reverse := by
  rw [tokenizePre] at h
  split at h
  · exact absurd h (by simp)
  case h_2 ts0 hts0 =>
    injection h with h
    subst h
    have hno : ∀ t ∈ ts0, t.type ≠ TokType.END_OF_FILE :=
      tokenizeLinesGo_no_eof lines 0 [] ts0 (by intro t ht; cases ht) hts0
    have heof : eofToken lines.length
        = (⟨str "EOF", .END_OF_FILE, lines.length - 1, 0, 0⟩ : Token) := by
      have hlen : 0 < lines.length := List.length_pos.mpr h0
      simp only [eofToken, eofLine, Token.mk.injEq, and_true, true_and]
      omega
    refine ⟨?_, ?_, ?_⟩
    · rw [List.getLast?_concat, heof]
    · rw [List.filter_append]
      have h2 : ts0.filter (fun t => t.type = TokType.END_OF_FILE) = [] := by
        rw [List.filter_eq_nil_iff]
        intro t ht
        simpa using hno t ht
      rw [h2]
      simp [eofToken]
    · rw [tokenize, tokenizePre, hts0]

/-- Closed instance of C9 on the one-line source `"<"`. -/
theorem xmlang_tokenize_single_eof_witness :
    ([(⟨['<'], .LEFT_ANGLE, 0, 0, 0⟩ : Token), eofToken 1]).getLast?
      = some ⟨str "EOF", .END_OF_FILE, [str "<"].length - 1, 0, 0⟩ ∧
    (([(⟨['<'], .LEFT_ANGLE, 0, 0, 0⟩ : Token), eofToken 1]).filter
      (fun t => t.type = TokType.END_OF_FILE)).length = 1 ∧
    tokenize [str "<"]
      = .ok ([(⟨['<'], .LEFT_ANGLE, 0, 0, 0⟩ : Token), eofToken 1]).reverse :=
  xmlang_tokenize_single_eof [str "<"] [⟨['<'], .LEFT_ANGLE, 0, 0, 0⟩, eofToken 1]
    (by decide) (by decide) (by rfl)

/-- C10 (code bug): `next_token` indexes past the end of the line.  A line
whose last character is `>` or `"` evaluates `line.at(cursor + 1)` with
`cursor + 1 == line.size()` (the guard checks `cursor < line.size()`
instead of `cursor + 1 < line.size()`), and a line of only spaces leaves
the cursor at `line.size()` before `line.at(cursor)`; each throws
`std::out_of_range`, so no token list is returned. -/
theorem xmlang_next_token_out_of_range :
    next_token (str ">") = .error (str "out_of_range") ∧
    next_token (str "\"") = .error (str "out_of_range") ∧
    next_token (str "    ") = .error (str "out_of_range") ∧
    next_token (str "<program>") = .error (str "out_of_range") :=
  ⟨rfl, rfl, rfl, rfl⟩

end XmlangLexFacts

namespace Xmlang

/-!
Embedding of `src/xmlang/source/Parser.cpp` and the AST of
`src/xmlang/include/xmlang/Parser.hpp`.

The reversed token stream is consumed through an `Int` cursor.
`std::vector::at` with an index that is negative (cast to a huge `size_t`)
or past the end throws: such accesses, a failed `assert`, and a null
`unique_ptr` dereference are `Res.crash`.  `liberror` `Result` errors are
`Res.err`; the diagnostics printed by `emit_parser_error` /
`emit_parser_warning` are recorded as ordered lists of kinds (their
coloured source rendering is display-only and not modelled), and the
process-wide `hadAnError_g` flag is `errors ≠ []` for the one compilation
being modelled.  The recursive-descent functions are fused into one
fuel-indexed dispatcher `parseRun` so that the embedding stays a
structural recursion; each `PCall` arm transcribes one source function
(`..Loop` arms are the source function's child-collecting `while` loop
together with the code that follows it).
-/

open XUtil

inductive ParserError where
  | UNEXPECTED_TOKEN_REACHED | EXPECTED_TOKEN_MISSING | ENCLOSING_TOKEN_MISSING
  | ENCLOSING_TOKEN_MISMATCH | UNEXPECTED_END_OF_FILE
deriving DecidableEq, Repr

inductive ParserWarning where
  | UNEXPECTED_TOKEN_POSITION
deriving DecidableEq, Repr

/-- The two diagnostic sinks (`emit_parser_error` sets `hadAnError_g`). -/
structure Diags where
  errors : List ParserError
  warns : List ParserWarning
deriving DecidableEq, Repr

/-- A default-constructed `Token` (empty data, first enumerator, zeroes). -/
def tokenDefault : Token := ⟨[], .LEFT_ANGLE, 0, 0, 0⟩

/-- The AST of `Parser.hpp`: nullable `unique_ptr` children are `Option`s;
nodes synthesized without an explicit token keep `tokenDefault`. -/
inductive Node where
  | programDecl (token : Token) (scope : List Node)
  | classDecl (token : Token) (name : List Char) (inherits : List (List Char)) (scope : List Node)
  | functionDecl (token : Token) (name result : List Char)
      (parameters : List (List Char × List Char)) (scope : List Node)
  | callStmt (token : Token) (who : List Char) (arguments : List Node)
  | argumentStmt (token : Token) (value : Option Node)
  | returnStmt (token : Token) (value : Option Node)
  | letStmt (token : Token) (name type : List Char) (value : Option Node)
  | literalExpr (token : Token) (value : List Char)

/-- Outcome of a parser step: `liberror` success / error, an uncaught
exception or failed assertion (`crash`), or embedding fuel exhaustion. -/
inductive Res (α : Type) where
  | ok (a : α)
  | err
  | crash
  | fuel
deriving DecidableEq

/-- Result, cursor and diagnostics triple. -/
abbrev PR (α : Type) := Res α × Int × Diags

/-- `tokens.at(size_t(c))`: `none` models the out-of-range throw. -/
def tokAt (tokens : List Token) (c : Int) : Option Token :=
  if 0 ≤ c then tokens.get? c.toNat else none

/-- `expect(tokens, cursor, type)`: the `cursor == -1` test happens before
the `at` call, so `-1` is a plain mismatch rather than a throw. -/
def expectT (tokens : List Token) (c : Int) (ty : TokType) : Option Bool :=
  if c = -1 then some false
  else match tokAt tokens c with
    | none => none
    | some t => some (t.type = ty)

/-- `expect(tokens, cursor, type, data)`. -/
def expectTD (tokens : List Token) (c : Int) (ty : TokType) (dat : List Char) : Option Bool :=
  if c = -1 then some false
  else match tokAt tokens c with
    | none => none
    | some t => some (t.type = ty ∧ t.data = dat)

/-- `advance(tokens, cursor)` (unconditional). -/
def advanceP (tokens : List Token) (c : Int) : Res (Token × Int) :=
  match tokAt tokens c with
  | none => .crash
  | some t => .ok (t, c - 1)

/-- `advance(tokens, cursor, type)`: consume on match, `make_error({})`
(no diagnostic) on mismatch. -/
def advanceT (tokens : List Token) (c : Int) (ty : TokType) : Res Token × Int :=
  match expectT tokens c ty with
  | none => (.crash, c)
  | some false => (.err, c)
  | some true =>
    match tokAt tokens c with
    | none => (.crash, c)
    | some t => (.ok t, c - 1)

/-- `advance(tokens, cursor, type, data)`. -/
def advanceTD (tokens : List Token) (c : Int) (ty : TokType) (dat : List Char) :
    Res Token × Int :=
  match expectTD tokens c ty dat with
  | none => (.crash, c)
  | some false => (.err, c)
  | some true =>
    match tokAt tokens c with
    | none => (.crash, c)
    | some t => (.ok t, c - 1)

/-- `emit_parser_error(kind, peek(tokens, cursor), msg); return make_error({})`:
the `peek` itself can throw. -/
def failAtCursor (α : Type) (tokens : List Token) (c : Int) (e : ParserError) (d : Diags) :
    PR α :=
  match tokAt tokens c with
  | none => (.crash, c, d)
  | some _ => (.err, c, { d with errors := d.errors ++ [e] })

/-- `emit_parser_error(kind, tok, msg); return make_error({})` on a token
already in hand. -/
def failAtTok (α : Type) (c : Int) (e : ParserError) (d : Diags) : PR α :=
  (.err, c, { d with errors := d.errors ++ [e] })

/-- `emit_parser_warning(UNEXPECTED_TOKEN_POSITION, tok, msg)`. -/
def warnPos (d : Diags) : Diags :=
  { d with warns := d.warns ++ [ParserWarning.UNEXPECTED_TOKEN_POSITION] }

/-- The stop condition of `synchronize`'s loop, as a proposition over the
two peeked tokens. -/
def syncPoint (tokens : List Token) (tok : Token) (c : Int) : Prop :=
  ∃ t0 t1, tokAt tokens c = some t0 ∧ tokAt tokens (c - 1) = some t1 ∧
    ((t0.type = TokType.LEFT_ANGLE ∧ t1.type = TokType.KEYWORD ∧
      t0.depth = tok.depth + 1) ∨ t0.depth = tok.depth)

/-- The loop of `synchronize`, on the cursor as a natural number (the loop
only runs while the cursor is above 2). -/
def syncGo (tokens : List Token) (tok : Token) : Nat → Option Int
  | 0 => some 0
  | n + 1 =>
    if n + 1 ≤ 2 then some (n + 1 : Nat)
    else
      match tokAt tokens (n + 1 : Nat), tokAt tokens n with
      | some t0, some t1 =>
        if (t0.type = TokType.LEFT_ANGLE ∧ t1.type = TokType.KEYWORD ∧
            t0.depth = tok.depth + 1) ∨ t0.depth = tok.depth
        then some (n + 1 : Nat)
        else syncGo tokens tok n
      | _, _ => none

/-- `synchronize(tokens, token, cursor)`: fast-forward (cursor decreasing)
while above the lower bound 2 and not at a `<`+Keyword pair at
`token.depth + 1` nor at a token of depth `token.depth`.  `none` models the
out-of-range throw of the peeks. -/
def synchronize (tokens : List Token) (tok : Token) (c : Int) : Option Int :=
  if 2 < c then syncGo tokens tok c.toNat else some c

/-- `parse_expression`: a literal token yields a `LiteralExpr`, a keyword
one step ahead trips the `UNIMPLEMENTED` assertion, anything else is a
successful null result. -/
def parse_expression (tokens : List Token) (c : Int) (d : Diags) : PR (Option Node) :=
  match tokAt tokens c with
  | none => (.crash, c, d)
  | some t =>
    if t.type = TokType.LITERAL then
      (.ok (some (.literalExpr tokenDefault t.data)), c - 1, d)
    else
      match tokAt tokens (c - 1) with
      | none => (.crash, c, d)
      | some t1 =>
        if t1.type = TokType.KEYWORD then (.crash, c, d)
        else (.ok none, c, d)

/-- The property loop of `parse_opening_tag` (fuelled; one unit per
iteration, each successful iteration consumes five tokens). -/
def propLoop (tokens : List Token) : Nat → Int → List (Token × Token) → Diags →
    PR (List (Token × Token))
  | 0, c, _, d => (.fuel, c, d)
  | fuel + 1, c, acc, d =>
    if 1 < c then
      match tokAt tokens c with
      | none => (.crash, c, d)
      | some t =>
        if t.type = TokType.RIGHT_ANGLE then (.ok acc, c, d)
        else
          match advanceT tokens c .IDENTIFIER with
          | (.ok pname, c) =>
            (match advanceT tokens c .EQUAL with
             | (.ok _, c) =>
               (match advanceT tokens c .QUOTE with
                | (.ok _, c) =>
                  (match advanceT tokens c .LITERAL with
                   | (.ok pval, c) =>
                     (match advanceT tokens c .QUOTE with
                      | (.ok _, c) => propLoop tokens fuel c (acc ++ [(pname, pval)]) d
                      | (.err, c) => failAtCursor _ tokens c .EXPECTED_TOKEN_MISSING d
                      | (.crash, c) => (.crash, c, d)
                      | (.fuel, c) => (.fuel, c, d))
                   | (.err, c) => failAtCursor _ tokens c .UNEXPECTED_TOKEN_REACHED d
                   | (.crash, c) => (.crash, c, d)
                   | (.fuel, c) => (.fuel, c, d))
                | (.err, c) => failAtCursor _ tokens c .EXPECTED_TOKEN_MISSING d
                | (.crash, c) => (.crash, c, d)
                | (.fuel, c) => (.fuel, c, d))
             | (.err, c) => failAtCursor _ tokens c .EXPECTED_TOKEN_MISSING d
             | (.crash, c) => (.crash, c, d)
             | (.fuel, c) => (.fuel, c, d))
          | (.err, c) => failAtCursor _ tokens c .UNEXPECTED_TOKEN_REACHED d
          | (.crash, c) => (.crash, c, d)
          | (.fuel, c) => (.fuel, c, d)
    else (.ok acc, c, d)

/-- `parse_opening_tag(tokens, cursor, name)`. -/
def parse_opening_tag (tokens : List Token) (fuel : Nat) (name : List Char)
    (c : Int) (d : Diags) : PR (Token × List (Token × Token)) :=
  match advanceT tokens c .LEFT_ANGLE with
  | (.ok _, c) =>
    (match advanceTD tokens c .KEYWORD name with
     | (.ok tag, c) =>
       (match propLoop tokens fuel c [] d with
        | (.ok props, c, d) =>
          (match advanceT tokens c .RIGHT_ANGLE with
           | (.ok _, c) => (.ok (tag, props), c, d)
           | (.err, c) => failAtCursor _ tokens c .UNEXPECTED_TOKEN_REACHED d
           | (.crash, c) => (.crash, c, d)
           | (.fuel, c) => (.fuel, c, d))
        | (.err, c, d) => (.err, c, d)
        | (.crash, c, d) => (.crash, c, d)
        | (.fuel, c, d) => (.fuel, c, d))
     | (.err, c) => failAtCursor _ tokens c .UNEXPECTED_TOKEN_REACHED d
     | (.crash, c) => (.crash, c, d)
     | (.fuel, c) => (.fuel, c, d))
  | (.err, c) => failAtCursor _ tokens c .UNEXPECTED_TOKEN_REACHED d
  | (.crash, c) => (.crash, c, d)
  | (.fuel, c) => (.fuel, c, d)

/-- `parse_closing_tag(tokens, cursor, tag)`. -/
def parse_closing_tag (tokens : List Token) (tag : Token) (c : Int) (d : Diags) :
    PR Unit :=
  match advanceT tokens c .LEFT_ANGLE with
  | (.ok _, c) =>
    (match advanceT tokens c .SLASH with
     | (.ok _, c) =>
       (match advanceT tokens c .KEYWORD with
        | (.ok closing, c) =>
          if closing.data ≠ tag.data then
            failAtTok _ c .ENCLOSING_TOKEN_MISMATCH d
          else
            (match advanceT tokens c .RIGHT_ANGLE with
             | (.ok _, c) => (.ok (), c, d)
             | (.err, c) => failAtCursor _ tokens c .UNEXPECTED_TOKEN_REACHED d
             | (.crash, c) => (.crash, c, d)
             | (.fuel, c) => (.fuel, c, d))
        | (.err, c) => failAtCursor _ tokens c .UNEXPECTED_TOKEN_REACHED d
        | (.crash, c) => (.crash, c, d)
        | (.fuel, c) => (.fuel, c, d))
     | (.err, c) => failAtCursor _ tokens c .UNEXPECTED_TOKEN_REACHED d
     | (.crash, c) => (.crash, c, d)
     | (.fuel, c) => (.fuel, c, d))
  | (.err, c) => failAtCursor _ tokens c .UNEXPECTED_TOKEN_REACHED d
  | (.crash, c) => (.crash, c, d)
  | (.fuel, c) => (.fuel, c, d)

end Xmlang

namespace Xmlang

open XUtil

/-- `node_type() == STATEMENT && stmt_type() == RETURN`. -/
def isRet : Node → Bool
  | .returnStmt _ _ => true
  | _ => false

/-- `node_type() == DECLARATION && decl_type() == FUNCTION && name == nm`. -/
def isFnNamed (nm : List Char) : Node → Bool
  | .functionDecl _ name _ _ _ => name = nm
  | _ => false

/-- First match of a property name, with its ordinal position. -/
def findIdxProp (key : List Char) : List (Token × Token) → Option (Nat × (Token × Token))
  | [] => none
  | p :: rest =>
    if p.1.data = key then some (0, p)
    else (findIdxProp key rest).map (fun q => (q.1 + 1, q.2))

/-- `std::getline(stream, inherited, ',')` collected into a list. -/
def splitComma (cs : List Char) : List (List Char) :=
  if cs = [] then []
  else
    let ls := splitOnChar ',' cs
    if ls.getLast? = some [] then ls.dropLast else ls

/-- `is_next_statement` data set. -/
def isNextStmtTok (t : Token) : Bool :=
  t.data = str "let" || t.data = str "call" || t.data = str "arg" ||
  t.data = str "new" || t.data = str "return"

/-- `is_next_declaration` data set. -/
def isNextDeclTok (t : Token) : Bool :=
  t.data = str "function" || t.data = str "class" ||
  t.data = str "ctor" || t.data = str "dtor"

/-- `parameters.push_back({"self", className})` on a `FunctionDecl`. -/
def appendSelfParam (clsName : List Char) : Node → Node
  | .functionDecl t nm r ps sc => .functionDecl t nm r (ps ++ [(str "self", clsName)]) sc
  | n => n

/-- `TRY(parse_closing_tag(tokens, cursor, tag)); return node;`. -/
def closeAnd (tokens : List Token) (tag : Token) (n : Node) (c : Int) (d : Diags) :
    PR (Option Node) :=
  match parse_closing_tag tokens tag c d with
  | (.ok _, c, d) => (.ok (some n), c, d)
  | (.err, c, d) => (.err, c, d)
  | (.crash, c, d) => (.crash, c, d)
  | (.fuel, c, d) => (.fuel, c, d)

/-- The code after `parse_function`'s statement loop: synthesize a trailing
empty return when the scope has none (regardless of the result type), then
parse the closing tag. -/
def fnFixupClose (tokens : List Token) (tag : Token) (name result : List Char)
    (params : List (List Char × List Char)) (scope : List Node) (c : Int) (d : Diags) :
    PR (Option Node) :=
  let scope' := if scope.any isRet then scope
                else scope ++ [.returnStmt tokenDefault none]
  closeAnd tokens tag (.functionDecl tag name result params scope') c d

/-- The code after `parse_class`'s loop: synthesize or patch `ctor` (front
insertion / `(self, name)` appended to the first one found), then the same
for `dtor` at position one, then the closing tag. -/
def classFixupClose (tokens : List Token) (tag : Token) (name : List Char)
    (inherits : List (List Char)) (scope : List Node) (c : Int) (d : Diags) :
    PR (Option Node) :=
  let scope1 :=
    match findIdxP (isFnNamed (str "ctor")) scope with
    | none =>
      Node.functionDecl tokenDefault (str "ctor") (str "none")
        [(str "self", name)] [] :: scope
    | some i => mapAtIdx scope i (appendSelfParam name)
  let scope2 :=
    match findIdxP (isFnNamed (str "dtor")) scope1 with
    | none =>
      insertIdxN scope1 1
        (Node.functionDecl tokenDefault (str "dtor") (str "none") [(str "self", name)] [])
    | some i => mapAtIdx scope1 i (appendSelfParam name)
  closeAnd tokens tag (.classDecl tag name inherits scope2) c d

/-- The code after `parse_program`'s loop: append `call main` when a
function named `main` is in scope, then the closing tag. -/
def progFixupClose (tokens : List Token) (tag : Token) (scope : List Node)
    (c : Int) (d : Diags) : PR (Option Node) :=
  let scope' := if scope.any (isFnNamed (str "main"))
                then scope ++ [.callStmt tokenDefault (str "main") []]
                else scope
  closeAnd tokens tag (.programDecl tag scope') c d

/-- Dispatch labels: one arm per source parse function; `..Loop` arms are
that function's child loop (carrying the locals live across iterations). -/
inductive PCall where
  | argP
  | callP
  | callLoop (tag : Token) (who : List Char) (args : List Node)
  | letP
  | retP
  | stmtP
  | funcP
  | funcLoop (tag : Token) (name result : List Char)
      (params : List (List Char × List Char)) (scope : List Node)
  | ctorP
  | ctorLoop (tag : Token) (scope : List Node)
  | dtorP
  | dtorLoop (tag : Token) (scope : List Node)
  | classP
  | classLoop (tag : Token) (name : List Char) (inherits : List (List Char))
      (scope : List Node)
  | declP
  | progP
  | progLoop (tag : Token) (scope : List Node)

/-- The recursive-descent parser, one fuel unit per call or loop iteration. -/
def parseRun : Nat → PCall → List Token → Int → Diags → PR (Option Node)
  | 0, _, _, c, d => (.fuel, c, d)
  | fuel + 1, call, tokens, c, d =>
    match call with
    | .argP =>
      (match parse_opening_tag tokens fuel (str "arg") c d with
       | (.ok (tag, props), c, d) =>
         let value0 : Option Node :=
           (props.find? (fun p => p.1.data = str "value")).map
             (fun p => .literalExpr tokenDefault p.2.data)
         (match value0 with
          | some v => closeAnd tokens tag (.argumentStmt tokenDefault (some v)) c d
          | none =>
            match parse_expression tokens c d with
            | (.ok (some v), c, d) =>
              closeAnd tokens tag (.argumentStmt tokenDefault (some v)) c d
            | (.ok none, c, d) => failAtCursor _ tokens c .EXPECTED_TOKEN_MISSING d
            | (.err, c, d) => (.err, c, d)
            | (.crash, c, d) => (.crash, c, d)
            | (.fuel, c, d) => (.fuel, c, d))
       | (.err, c, d) => (.err, c, d)
       | (.crash, c, d) => (.crash, c, d)
       | (.fuel, c, d) => (.fuel, c, d))
    | .callP =>
      (match parse_opening_tag tokens fuel (str "call") c d with
       | (.ok (tag, props), c, d) =>
         (match props.find? (fun p => p.1.data = str "who") with
          | none => failAtTok _ c .EXPECTED_TOKEN_MISSING d
          | some pw => parseRun fuel (.callLoop tag pw.2.data []) tokens c d)
       | (.err, c, d) => (.err, c, d)
       | (.crash, c, d) => (.crash, c, d)
       | (.fuel, c, d) => (.fuel, c, d))
    | .callLoop tag who args =>
      if 0 < c then
        match tokAt tokens c with
        | none => (.crash, c, d)
        | some t =>
          if tag.depth < t.depth then
            match parseRun fuel .argP tokens c d with
            | (.ok (some a), c, d) =>
              parseRun fuel (.callLoop tag who (args ++ [a])) tokens c d
            | (.ok none, c, d) => closeAnd tokens tag (.callStmt tag who args) c d
            | (.err, c, d) =>
              (match synchronize tokens tag c with
               | none => (.crash, c, d)
               | some c => parseRun fuel (.callLoop tag who args) tokens c d)
            | (.crash, c, d) => (.crash, c, d)
            | (.fuel, c, d) => (.fuel, c, d)
          else closeAnd tokens tag (.callStmt tag who args) c d
      else closeAnd tokens tag (.callStmt tag who args) c d
    | .letP =>
      (match parse_opening_tag tokens fuel (str "let") c d with
       | (.ok (tag, props), c, d) =>
         (match props.find? (fun p => p.1.data = str "name") with
          | none => failAtTok _ c .EXPECTED_TOKEN_MISSING d
          | some pn =>
            match props.find? (fun p => p.1.data = str "type") with
            | none => failAtTok _ c .EXPECTED_TOKEN_MISSING d
            | some pt =>
              let value0 : Option Node :=
                (props.find? (fun p => p.1.data = str "value")).map
                  (fun p => .literalExpr tokenDefault p.2.data)
              match value0 with
              | some v =>
                closeAnd tokens tag (.letStmt tag pn.2.data pt.2.data (some v)) c d
              | none =>
                match parse_expression tokens c d with
                | (.ok (some v), c, d) =>
                  closeAnd tokens tag (.letStmt tag pn.2.data pt.2.data (some v)) c d
                | (.ok none, c, d) => failAtCursor _ tokens c .EXPECTED_TOKEN_MISSING d
                | (.err, c, d) => (.err, c, d)
                | (.crash, c, d) => (.crash, c, d)
                | (.fuel, c, d) => (.fuel, c, d))
       | (.err, c, d) => (.err, c, d)
       | (.crash, c, d) => (.crash, c, d)
       | (.fuel, c, d) => (.fuel, c, d))
    | .retP =>
      (match parse_opening_tag tokens fuel (str "return") c d with
       | (.ok (tag, props), c, d) =>
         let value0 : Option Node :=
           (props.find? (fun p => p.1.data = str "value")).map
             (fun p => .literalExpr tokenDefault p.2.data)
         (match value0 with
          | some v => closeAnd tokens tag (.returnStmt tag (some v)) c d
          | none =>
            match parse_expression tokens c d with
            | (.ok v?, c, d) => closeAnd tokens tag (.returnStmt tag v?) c d
            | (.err, c, d) => (.err, c, d)
            | (.crash, c, d) => (.crash, c, d)
            | (.fuel, c, d) => (.fuel, c, d))
       | (.err, c, d) => (.err, c, d)
       | (.crash, c, d) => (.crash, c, d)
       | (.fuel, c, d) => (.fuel, c, d))
    | .stmtP =>
      (match tokAt tokens (c - 1) with
       | none => (.crash, c, d)
       | some t1 =>
         if t1.data = str "let" then parseRun fuel .letP tokens c d
         else if t1.data = str "call" then parseRun fuel .callP tokens c d
         else if t1.data = str "return" then parseRun fuel .retP tokens c d
         else (.ok none, c, d))
    | .funcP =>
      (match parse_opening_tag tokens fuel (str "function") c d with
       | (.ok (tag, props), c, d) =>
         (match findIdxProp (str "name") props with
          | none => failAtTok _ c .EXPECTED_TOKEN_MISSING d
          | some (iN, pN) =>
            let d := if iN ≠ 0 then warnPos d else d
            let name := if iN = 0 then pN.2.data else []
            match findIdxProp (str "result") props with
            | none => failAtTok _ c .EXPECTED_TOKEN_MISSING d
            | some (iR, pR) =>
              let d := if iR ≠ 1 then warnPos d else d
              let result := if iR = 1 then pR.2.data else []
              let params := (props.drop 2).map (fun p => (p.1.data, p.2.data))
              parseRun fuel (.funcLoop tag name result params []) tokens c d)
       | (.err, c, d) => (.err, c, d)
       | (.crash, c, d) => (.crash, c, d)
       | (.fuel, c, d) => (.fuel, c, d))
    | .funcLoop tag name result params scope =>
      if 0 < c then
        match tokAt tokens c with
        | none => (.crash, c, d)
        | some t =>
          if tag.depth < t.depth then
            match parseRun fuel .stmtP tokens c d with
            | (.ok (some n), c, d) =>
              parseRun fuel (.funcLoop tag name result params (scope ++ [n])) tokens c d
            | (.ok none, c, d) => fnFixupClose tokens tag name result params scope c d
            | (.err, c, d) =>
              (match synchronize tokens tag c with
               | none => (.crash, c, d)
               | some c => parseRun fuel (.funcLoop tag name result params scope) tokens c d)
            | (.crash, c, d) => (.crash, c, d)
            | (.fuel, c, d) => (.fuel, c, d)
          else fnFixupClose tokens tag name result params scope c d
      else fnFixupClose tokens tag name result params scope c d
    | .ctorP =>
      (match parse_opening_tag tokens fuel (str "ctor") c d with
       | (.ok (tag, _), c, d) => parseRun fuel (.ctorLoop tag []) tokens c d
       | (.err, c, d) => (.err, c, d)
       | (.crash, c, d) => (.crash, c, d)
       | (.fuel, c, d) => (.fuel, c, d))
    | .ctorLoop tag scope =>
      if 0 < c then
        match tokAt tokens c with
        | none => (.crash, c, d)
        | some t =>
          if tag.depth < t.depth then
            match tokAt tokens (c - 1) with
            | none => (.crash, c, d)
            | some t1 =>
              if isNextDeclTok t1 then
                match parseRun fuel .declP tokens c d with
                | (.ok (some n), c, d) => parseRun fuel (.ctorLoop tag (scope ++ [n])) tokens c d
                | (.ok none, c, d) =>
                  closeAnd tokens tag (.functionDecl tag (str "ctor") [] [] scope) c d
                | (.err, c, d) =>
                  (match synchronize tokens tag c with
                   | none => (.crash, c, d)
                   | some c => parseRun fuel (.ctorLoop tag scope) tokens c d)
                | (.crash, c, d) => (.crash, c, d)
                | (.fuel, c, d) => (.fuel, c, d)
              else if isNextStmtTok t1 then
                match parseRun fuel .stmtP tokens c d with
                | (.ok (some n), c, d) => parseRun fuel (.ctorLoop tag (scope ++ [n])) tokens c d
                | (.ok none, c, d) =>
                  closeAnd tokens tag (.functionDecl tag (str "ctor") [] [] scope) c d
                | (.err, c, d) =>
                  (match synchronize tokens tag c with
                   | none => (.crash, c, d)
                   | some c => parseRun fuel (.ctorLoop tag scope) tokens c d)
                | (.crash, c, d) => (.crash, c, d)
                | (.fuel, c, d) => (.fuel, c, d)
              else closeAnd tokens tag (.functionDecl tag (str "ctor") [] [] scope) c d
          else closeAnd tokens tag (.functionDecl tag (str "ctor") [] [] scope) c d
      else closeAnd tokens tag (.functionDecl tag (str "ctor") [] [] scope) c d
    | .dtorP =>
      (match parse_opening_tag tokens fuel (str "dtor") c d with
       | (.ok (tag, _), c, d) => parseRun fuel (.dtorLoop tag []) tokens c d
       | (.err, c, d) => (.err, c, d)
       | (.crash, c, d) => (.crash, c, d)
       | (.fuel, c, d) => (.fuel, c, d))
    | .dtorLoop tag scope =>
      if 0 < c then
        match tokAt tokens c with
        | none => (.crash, c, d)
        | some t =>
          if tag.depth < t.depth then
            match tokAt tokens (c - 1) with
            | none => (.crash, c, d)
            | some t1 =>
              if isNextDeclTok t1 then
                match parseRun fuel .declP tokens c d with
                | (.ok (some n), c, d) => parseRun fuel (.dtorLoop tag (scope ++ [n])) tokens c d
                | (.ok none, c, d) =>
                  closeAnd tokens tag (.functionDecl tag (str "dtor") [] [] scope) c d
                | (.err, c, d) =>
                  (match synchronize tokens tag c with
                   | none => (.crash, c, d)
                   | some c => parseRun fuel (.dtorLoop tag scope) tokens c d)
                | (.crash, c, d) => (.crash, c, d)
                | (.fuel, c, d) => (.fuel, c, d)
              else if isNextStmtTok t1 then
                match parseRun fuel .stmtP tokens c d with
                | (.ok (some n), c, d) => parseRun fuel (.dtorLoop tag (scope ++ [n])) tokens c d
                | (.ok none, c, d) =>
                  closeAnd tokens tag (.functionDecl tag (str "dtor") [] [] scope) c d
                | (.err, c, d) =>
                  (match synchronize tokens tag c with
                   | none => (.crash, c, d)
                   | some c => parseRun fuel (.dtorLoop tag scope) tokens c d)
                | (.crash, c, d) => (.crash, c, d)
                | (.fuel, c, d) => (.fuel, c, d)
              else closeAnd tokens tag (.functionDecl tag (str "dtor") [] [] scope) c d
          else closeAnd tokens tag (.functionDecl tag (str "dtor") [] [] scope) c d
      else closeAnd tokens tag (.functionDecl tag (str "dtor") [] [] scope) c d
    | .classP =>
      (match parse_opening_tag tokens fuel (str "class") c d with
       | (.ok (tag, props), c, d) =>
         (match findIdxProp (str "name") props with
          | none => failAtTok _ c .EXPECTED_TOKEN_MISSING d
          | some (iN, pN) =>
            let d := if iN ≠ 0 then warnPos d else d
            let name := if iN = 0 then pN.2.data else []
            match props.find? (fun p => p.1.data = str "inherits") with
            | some pi => parseRun fuel (.classLoop tag name (splitComma pi.2.data) []) tokens c d
            | none =>
              if props.length ≠ 1 then (.crash, c, d)
              else parseRun fuel (.classLoop tag name [] []) tokens c d)
       | (.err, c, d) => (.err, c, d)
       | (.crash, c, d) => (.crash, c, d)
       | (.fuel, c, d) => (.fuel, c, d))
    | .classLoop tag name inherits scope =>
      if 0 < c then
        match tokAt tokens c with
        | none => (.crash, c, d)
        | some t =>
          if tag.depth < t.depth then
            match tokAt tokens (c - 1) with
            | none => (.crash, c, d)
            | some t1 =>
              if isNextDeclTok t1 then
                match parseRun fuel .declP tokens c d with
                | (.ok (some n), c, d) =>
                  parseRun fuel (.classLoop tag name inherits (scope ++ [n])) tokens c d
                | (.ok none, c, d) => classFixupClose tokens tag name inherits scope c d
                | (.err, c, d) =>
                  (match synchronize tokens tag c with
                   | none => (.crash, c, d)
                   | some c => parseRun fuel (.classLoop tag name inherits scope) tokens c d)
                | (.crash, c, d) => (.crash, c, d)
                | (.fuel, c, d) => (.fuel, c, d)
              else if isNextStmtTok t1 then
                match parseRun fuel .stmtP tokens c d with
                | (.ok (some n), c, d) =>
                  parseRun fuel (.classLoop tag name inherits (scope ++ [n])) tokens c d
                | (.ok none, c, d) => classFixupClose tokens tag name inherits scope c d
                | (.err, c, d) =>
                  (match synchronize tokens tag c with
                   | none => (.crash, c, d)
                   | some c => parseRun fuel (.classLoop tag name inherits scope) tokens c d)
                | (.crash, c, d) => (.crash, c, d)
                | (.fuel, c, d) => (.fuel, c, d)
              else classFixupClose tokens tag name inherits scope c d
          else classFixupClose tokens tag name inherits scope c d
      else classFixupClose tokens tag name inherits scope c d
    | .declP =>
      (match tokAt tokens (c - 1) with
       | none => (.crash, c, d)
       | some t1 =>
         if t1.data = str "function" then parseRun fuel .funcP tokens c d
         else if t1.data = str "class" then parseRun fuel .classP tokens c d
         else if t1.data = str "ctor" then parseRun fuel .ctorP tokens c d
         else if t1.data = str "dtor" then parseRun fuel .dtorP tokens c d
         else (.ok none, c, d))
    | .progP =>
      (match parse_opening_tag tokens fuel (str "program") c d with
       | (.ok (tag, _), c, d) => parseRun fuel (.progLoop tag []) tokens c d
       | (.err, c, d) => (.err, c, d)
       | (.crash, c, d) => (.crash, c, d)
       | (.fuel, c, d) => (.fuel, c, d))
    | .progLoop tag scope =>
      if 0 < c then
        match tokAt tokens c with
        | none => (.crash, c, d)
        | some t =>
          if t.depth = tag.depth + 1 then
            match tokAt tokens (c - 1) with
            | none => (.crash, c, d)
            | some t1 =>
              if isNextDeclTok t1 then
                match parseRun fuel .declP tokens c d with
                | (.ok (some n), c, d) => parseRun fuel (.progLoop tag (scope ++ [n])) tokens c d
                | (.ok none, c, d) => progFixupClose tokens tag scope c d
                | (.err, c, d) =>
                  (match synchronize tokens tag c with
                   | none => (.crash, c, d)
                   | some c => parseRun fuel (.progLoop tag scope) tokens c d)
                | (.crash, c, d) => (.crash, c, d)
                | (.fuel, c, d) => (.fuel, c, d)
              else if isNextStmtTok t1 then
                match parseRun fuel .stmtP tokens c d with
                | (.ok (some n), c, d) => parseRun fuel (.progLoop tag (scope ++ [n])) tokens c d
                | (.ok none, c, d) => progFixupClose tokens tag scope c d
                | (.err, c, d) =>
                  (match synchronize tokens tag c with
                   | none => (.crash, c, d)
                   | some c => parseRun fuel (.progLoop tag scope) tokens c d)
                | (.crash, c, d) => (.crash, c, d)
                | (.fuel, c, d) => (.fuel, c, d)
              else progFixupClose tokens tag scope c d
          else progFixupClose tokens tag scope c d
      else progFixupClose tokens tag scope c d

/-- `parse_function(tokens, cursor)` as a standalone entry point. -/
def parse_function (fuel : Nat) (tokens : List Token) (c : Int) (d : Diags) :
    PR (Option Node) :=
  parseRun (fuel + 1) .funcP tokens c d

/-- `parse_class(tokens, cursor)` as a standalone entry point. -/
def parse_class (fuel : Nat) (tokens : List Token) (c : Int) (d : Diags) :
    PR (Option Node) :=
  parseRun (fuel + 1) .classP tokens c d

/-- `parse(tokens)`: parse the program from the top of the reversed stream;
a latched diagnostic turns success into the final "I give up" error. -/
def parse (fuel : Nat) (tokens : List Token) : PR (Option Node) :=
  match parseRun (fuel + 1) .progP tokens (Int.ofNat tokens.length - 1) ⟨[], []⟩ with
  | (.ok p, c, d) => if d.errors ≠ [] then (.err, c, d) else (.ok p, c, d)
  | r => r

end Xmlang

namespace XmlangParseFacts

open XUtil Xmlang

theorem syncGo_spec (tokens : List Token) (tok : Token) :
    ∀ (n : Nat) (c' : Int), syncGo tokens tok n = some c' →
      c' ≤ (n : Int) ∧ (c' ≤ 2 ∨ syncPoint tokens tok c') := by
  intro n
  induction n with
  | zero =>
    intro c' h
    simp only [syncGo, Option.some.injEq] at h
    subst h
    exact ⟨by omega, Or.inl (by omega)⟩
  | succ n ih =>
    intro c' h
    rw [syncGo] at h
    split at h
    · injection h with h
      subst h
      exact ⟨le_refl _, Or.inl (by omega)⟩
    · split at h
      case h_2 => exact absurd h (by simp)
      case h_1 t0 t1 heq0 heq1 =>
        split at h
        case isTrue hstop =>
          injection h with h
          subst h
          refine ⟨le_refl _, Or.inr ⟨t0, t1, heq0, ?_, hstop⟩⟩
          have hc : ((n + 1 : Nat) : Int) - 1 = (n : Int) := by push_cast; ring
          rw [hc]
          exact heq1
        case isFalse =>
          obtain ⟨h1, h2⟩ := ih c' h
          exact ⟨by omega, h2⟩

/-- C7: whenever `synchronize` returns (its token peeks stay in range), the
cursor never increases, the final position is either at the lower cursor
bound (≤ 2) or at a recovery point — a `<` immediately followed by a
Keyword at depth `anchor.depth + 1`, or any token at exactly
`anchor.depth` — and when invoked above the bound at a non-recovery
position it strictly decreases the cursor. -/
theorem xmlang_synchronize_progress (tokens : List Token) (tok : Token) (c c' : Int)
    (h : synchronize tokens tok c = some c') :
    c' ≤ c ∧ (c' ≤ 2 ∨ syncPoint tokens tok c') ∧
    (2 < c → ¬ syncPoint tokens tok c → c' < c) := by
  rw [synchronize] at h
  by_cases hc : 2 < c
  · rw [if_pos hc] at h
    obtain ⟨h1, h2⟩ := syncGo_spec tokens tok c.toNat c' h
    have hcast : (c.toNat : Int) = c := Int.toNat_of_nonneg (by omega)
    rw [hcast] at h1
    refine ⟨h1, h2, ?_⟩
    intro _ hnp
    rcases h2 with h2 | h2
    · omega
    · rcases lt_or_eq_of_le h1 with hlt | hEq
      · exact hlt
      · exact absurd (hEq ▸ h2) hnp
  · rw [if_neg hc] at h
    injection h with h
    subst h
    exact ⟨le_refl _, Or.inl (by omega), fun h2 => absurd h2 hc⟩

/-- Closed instance of C7: a recovery run over a concrete token stream. -/
theorem xmlang_synchronize_progress_witness :
    (6 : Int) ≤ 7 ∧ ((6 : Int) ≤ 2 ∨ syncPoint
      (List.replicate 7 (⟨[], .LITERAL, 0, 0, 5⟩ : Token)
        ++ [(⟨[], .LITERAL, 0, 0, 1⟩ : Token)]) ⟨[], .KEYWORD, 0, 0, 5⟩ 6) ∧
    (2 < (7 : Int) → ¬ syncPoint
      (List.replicate 7 (⟨[], .LITERAL, 0, 0, 5⟩ : Token)
        ++ [(⟨[], .LITERAL, 0, 0, 1⟩ : Token)]) ⟨[], .KEYWORD, 0, 0, 5⟩ 7 → (6 : Int) < 7) :=
  xmlang_synchronize_progress
    (List.replicate 7 (⟨[], .LITERAL, 0, 0, 5⟩ : Token)
      ++ [(⟨[], .LITERAL, 0, 0, 1⟩ : Token)]) ⟨[], .KEYWORD, 0, 0, 5⟩ 7 6 (by rfl)

end XmlangParseFacts

namespace XmlcP

/-!
Embedding of `src/xmlc/source/Parser.cpp` and the AST of
`src/xmlc/include/xmlc/Parser.hpp` (the older dialect: `PROPERTY` tokens,
double or single quotes, property values parsed as expressions, a `type`
rather than `result` property on functions, and the
`MISSING_RETURN_STATEMENT` diagnostic).  The same conventions as the
`Xmlang` parser embedding apply; `parse_program` / `parse_else` are not
transcribed (no claim depends on them, and `parse_else` is only reachable
from `parse_if`, which trips an `UNIMPLEMENTED` assertion first).
-/

open XUtil

inductive TokType where
  | LEFT_ANGLE | RIGHT_ANGLE | DOUBLE_QUOTE | SINGLE_QUOTE | SLASH | EQUAL
  | KEYWORD | LITERAL | PROPERTY | END_OF_FILE
deriving DecidableEq, Repr

structure Token where
  data : List Char
  type : TokType
  line : Nat
  column : Nat
  depth : Nat
deriving DecidableEq, Repr

inductive ParserError where
  | UNEXPECTED_TOKEN_REACHED | EXPECTED_TOKEN_MISSING | ENCLOSING_TOKEN_MISSING
  | ENCLOSING_TOKEN_MISMATCH | UNEXPECTED_END_OF_FILE | MISSING_RETURN_STATEMENT
deriving DecidableEq, Repr

inductive ParserWarning where
  | UNEXPECTED_TOKEN_POSITION
deriving DecidableEq, Repr

structure Diags where
  errors : List ParserError
  warns : List ParserWarning
deriving DecidableEq, Repr

def tokenDefault : Token := ⟨[], .LEFT_ANGLE, 0, 0, 0⟩

inductive Node where
  | programDecl (token : Token) (scope : List Node)
  | functionDecl (token : Token) (type : List Char)
      (parameters : List (List Char × List Char)) (name : List Char) (scope : List Node)
  | callStmt (token : Token) (who : List Char) (arguments : List Node)
  | argStmt (token : Token) (value : Option Node)
  | retStmt (token : Token) (type : List Char) (value : Option Node)
  | letStmt (token : Token) (name type : List Char) (value : Option Node)
  | ifStmt (token : Token) (condition : Option Node) (trueBranch falseBranch : List Node)
  | literalExpr (token : Token) (value : List Char)
  | logicalExpr (token : Token) (value : Option Node)
  | arithmeticExpr (token : Token) (value : Option Node)

inductive Res (α : Type) where
  | ok (a : α)
  | err
  | crash
  | fuel
deriving DecidableEq

abbrev PR (α : Type) := Res α × Int × Diags

def tokAt (tokens : List Token) (c : Int) : Option Token :=
  if 0 ≤ c then tokens.get? c.toNat else none

def expectT (tokens : List Token) (c : Int) (ty : TokType) : Option Bool :=
  if c = -1 then some false
  else match tokAt tokens c with
    | none => none
    | some t => some (t.type = ty)

def expectTD (tokens : List Token) (c : Int) (ty : TokType) (dat : List Char) : Option Bool :=
  if c = -1 then some false
  else match tokAt tokens c with
    | none => none
    | some t => some (t.type = ty ∧ t.data = dat)

def advanceP (tokens : List Token) (c : Int) : Res (Token × Int) :=
  match tokAt tokens c with
  | none => .crash
  | some t => .ok (t, c - 1)

def advanceT (tokens : List Token) (c : Int) (ty : TokType) : Res Token × Int :=
  match expectT tokens c ty with
  | none => (.crash, c)
  | some false => (.err, c)
  | some true =>
    match tokAt tokens c with
    | none => (.crash, c)
    | some t => (.ok t, c - 1)

def advanceTD (tokens : List Token) (c : Int) (ty : TokType) (dat : List Char) :
    Res Token × Int :=
  match expectTD tokens c ty dat with
  | none => (.crash, c)
  | some false => (.err, c)
  | some true =>
    match tokAt tokens c with
    | none => (.crash, c)
    | some t => (.ok t, c - 1)

def failAtCursor (α : Type) (tokens : List Token) (c : Int) (e : ParserError) (d : Diags) :
    PR α :=
  match tokAt tokens c with
  | none => (.crash, c, d)
  | some _ => (.err, c, { d with errors := d.errors ++ [e] })

def failAtTok (α : Type) (c : Int) (e : ParserError) (d : Diags) : PR α :=
  (.err, c, { d with errors := d.errors ++ [e] })

def warnPos (d : Diags) : Diags :=
  { d with warns := d.warns ++ [ParserWarning.UNEXPECTED_TOKEN_POSITION] }

def syncGo (tokens : List Token) (tok : Token) : Nat → Option Int
  | 0 => some 0
  | n + 1 =>
    if n + 1 ≤ 2 then some (n + 1 : Nat)
    else
      match tokAt tokens (n + 1 : Nat), tokAt tokens n with
      | some t0, some t1 =>
        if (t0.type = TokType.LEFT_ANGLE ∧ t1.type = TokType.KEYWORD ∧
            t0.depth = tok.depth + 1) ∨ t0.depth = tok.depth
        then some (n + 1 : Nat)
        else syncGo tokens tok n
      | _, _ => none

def synchronize (tokens : List Token) (tok : Token) (c : Int) : Option Int :=
  if 2 < c then syncGo tokens tok c.toNat else some c

/-- `parse_expression` (xmlc): `expect`-guarded, so cursor `-1` is an
ordinary mismatch. -/
def parse_expression (tokens : List Token) (c : Int) (d : Diags) : PR (Option Node) :=
  match expectT tokens c .LITERAL with
  | none => (.crash, c, d)
  | some true =>
    (match advanceP tokens c with
     | .ok (t, c) => (.ok (some (.literalExpr tokenDefault t.data)), c, d)
     | _ => (.crash, c, d))
  | some false =>
    match expectT tokens c .KEYWORD with
    | none => (.crash, c, d)
    | some true => (.crash, c, d)
    | some false => (.ok none, c, d)

/-- `advance(DOUBLE_QUOTE) || advance(SINGLE_QUOTE)`. -/
def advanceQuote (tokens : List Token) (c : Int) : Res Token × Int :=
  match advanceT tokens c .DOUBLE_QUOTE with
  | (.ok t, c) => (.ok t, c)
  | (.err, _) => advanceT tokens c .SINGLE_QUOTE
  | r => r

/-- `static_cast<LiteralExpr const*>(node.get())->value` guarded by the
`EXPRESSION` / `LITERAL` asserts. -/
def litValOf : Option Node → Res (List Char)
  | some (.literalExpr _ v) => .ok v
  | _ => .crash

def propLoop (tokens : List Token) : Nat → Int → List (Token × Option Node) → Diags →
    PR (List (Token × Option Node))
  | 0, c, _, d => (.fuel, c, d)
  | fuel + 1, c, acc, d =>
    if 1 < c then
      match tokAt tokens c with
      | none => (.crash, c, d)
      | some t =>
        if t.type = TokType.RIGHT_ANGLE then (.ok acc, c, d)
        else
          match advanceT tokens c .PROPERTY with
          | (.ok pname, c) =>
            (match advanceT tokens c .EQUAL with
             | (.ok _, c) =>
               (match advanceQuote tokens c with
                | (.ok _, c) =>
                  (match parse_expression tokens c d with
                   | (.ok pval, c, d) =>
                     (match advanceQuote tokens c with
                      | (.ok _, c) => propLoop tokens fuel c (acc ++ [(pname, pval)]) d
                      | (.err, c) => failAtCursor _ tokens c .EXPECTED_TOKEN_MISSING d
                      | (.crash, c) => (.crash, c, d)
                      | (.fuel, c) => (.fuel, c, d))
                   | (.err, c, d) => failAtCursor _ tokens c .UNEXPECTED_TOKEN_REACHED d
                   | (.crash, c, d) => (.crash, c, d)
                   | (.fuel, c, d) => (.fuel, c, d))
                | (.err, c) => failAtCursor _ tokens c .EXPECTED_TOKEN_MISSING d
                | (.crash, c) => (.crash, c, d)
                | (.fuel, c) => (.fuel, c, d))
             | (.err, c) => failAtCursor _ tokens c .EXPECTED_TOKEN_MISSING d
             | (.crash, c) => (.crash, c, d)
             | (.fuel, c) => (.fuel, c, d))
          | (.err, c) => failAtCursor _ tokens c .UNEXPECTED_TOKEN_REACHED d
          | (.crash, c) => (.crash, c, d)
          | (.fuel, c) => (.fuel, c, d)
    else (.ok acc, c, d)

def parse_opening_tag (tokens : List Token) (fuel : Nat) (name : List Char)
    (c : Int) (d : Diags) : PR (Token × List (Token × Option Node)) :=
  match advanceT tokens c .LEFT_ANGLE with
  | (.ok _, c) =>
    (match advanceTD tokens c .KEYWORD name with
     | (.ok tag, c) =>
       (match propLoop tokens fuel c [] d with
        | (.ok props, c, d) =>
          (match advanceT tokens c .RIGHT_ANGLE with
           | (.ok _, c) => (.ok (tag, props), c, d)
           | (.err, c) => failAtCursor _ tokens c .UNEXPECTED_TOKEN_REACHED d
           | (.crash, c) => (.crash, c, d)
           | (.fuel, c) => (.fuel, c, d))
        | (.err, c, d) => (.err, c, d)
        | (.crash, c, d) => (.crash, c, d)
        | (.fuel, c, d) => (.fuel, c, d))
     | (.err, c) => failAtCursor _ tokens c .UNEXPECTED_TOKEN_REACHED d
     | (.crash, c) => (.crash, c, d)
     | (.fuel, c) => (.fuel, c, d))
  | (.err, c) => failAtCursor _ tokens c .UNEXPECTED_TOKEN_REACHED d
  | (.crash, c) => (.crash, c, d)
  | (.fuel, c) => (.fuel, c, d)

def parse_closing_tag (tokens : List Token) (tag : Token) (c : Int) (d : Diags) :
    PR Unit :=
  match advanceT tokens c .LEFT_ANGLE with
  | (.ok _, c) =>
    (match advanceT tokens c .SLASH with
     | (.ok _, c) =>
       (match advanceT tokens c .KEYWORD with
        | (.ok closing, c) =>
          if closing.data ≠ tag.data then
            failAtTok _ c .ENCLOSING_TOKEN_MISMATCH d
          else
            (match advanceT tokens c .RIGHT_ANGLE with
             | (.ok _, c) => (.ok (), c, d)
             | (.err, c) => failAtCursor _ tokens c .UNEXPECTED_TOKEN_REACHED d
             | (.crash, c) => (.crash, c, d)
             | (.fuel, c) => (.fuel, c, d))
        | (.err, c) => failAtCursor _ tokens c .UNEXPECTED_TOKEN_REACHED d
        | (.crash, c) => (.crash, c, d)
        | (.fuel, c) => (.fuel, c, d))
     | (.err, c) => failAtCursor _ tokens c .UNEXPECTED_TOKEN_REACHED d
     | (.crash, c) => (.crash, c, d)
     | (.fuel, c) => (.fuel, c, d))
  | (.err, c) => failAtCursor _ tokens c .UNEXPECTED_TOKEN_REACHED d
  | (.crash, c) => (.crash, c, d)
  | (.fuel, c) => (.fuel, c, d)

/-- `stmt_type() == RETURN` under `node_type() == STATEMENT`. -/
def isRet : Node → Bool
  | .retStmt _ _ _ => true
  | _ => false

/-- Back-patch `retStmt->type = functionDecl->type`. -/
def setRetType (ty : List Char) : Node → Node
  | .retStmt t _ v => .retStmt t ty v
  | n => n

def findIdxProp (key : List Char) : List (Token × Option Node) →
    Option (Nat × (Token × Option Node))
  | [] => none
  | p :: rest =>
    if p.1.data = key then some (0, p)
    else (findIdxProp key rest).map (fun q => (q.1 + 1, q.2))

def closeAnd (tokens : List Token) (tag : Token) (n : Node) (c : Int) (d : Diags) :
    PR (Option Node) :=
  match parse_closing_tag tokens tag c d with
  | (.ok _, c, d) => (.ok (some n), c, d)
  | (.err, c, d) => (.err, c, d)
  | (.crash, c, d) => (.crash, c, d)
  | (.fuel, c, d) => (.fuel, c, d)

/-- The code after `parse_function`'s statement loop: a scope without a
`return` either gets an implicit one (declared type `none`) or is the fatal
`MISSING_RETURN_STATEMENT`; an existing first `return` is back-patched with
the function's type.  Then the closing tag is parsed. -/
def fnFixupClose (tokens : List Token) (tag : Token) (ty : List Char)
    (params : List (List Char × List Char)) (name : List Char) (scope : List Node)
    (c : Int) (d : Diags) : PR (Option Node) :=
  match findIdxP isRet scope with
  | none =>
    if ty = str "none" then
      closeAnd tokens tag
        (.functionDecl tag ty params name (scope ++ [.retStmt tokenDefault ty none])) c d
    else failAtTok _ c .MISSING_RETURN_STATEMENT d
  | some i =>
    closeAnd tokens tag
      (.functionDecl tag ty params name (mapAtIdx scope i (setRetType ty))) c d

/-- The `properties | drop(2)` parameter loop of `parse_function`, with its
literal-extraction asserts. -/
def paramsOf : List (Token × Option Node) → Res (List (List Char × List Char))
  | [] => .ok []
  | (nameTok, v) :: rest =>
    match litValOf v with
    | .ok val =>
      (match paramsOf rest with
       | .ok ps => .ok ((nameTok.data, val) :: ps)
       | .err => .err
       | .crash => .crash
       | .fuel => .fuel)
    | _ => .crash

inductive PCall where
  | argP
  | callP
  | callLoop (tag : Token) (who : List Char) (args : List Node)
  | letP
  | retP
  | ifP
  | stmtP
  | funcP
  | funcLoop (tag : Token) (ty : List Char)
      (params : List (List Char × List Char)) (name : List Char) (scope : List Node)

def parseRun : Nat → PCall → List Token → Int → Diags → PR (Option Node)
  | 0, _, _, c, d => (.fuel, c, d)
  | fuel + 1, call, tokens, c, d =>
    match call with
    | .argP =>
      (match parse_opening_tag tokens fuel (str "arg") c d with
       | (.ok (tag, props), c, d) =>
         (match props.find? (fun p => p.1.data = str "value") with
          | some pv =>
            (match litValOf pv.2 with
             | .ok v => closeAnd tokens tag (.argStmt tag (some (.literalExpr tokenDefault v))) c d
             | _ => (.crash, c, d))
          | none =>
            match parse_expression tokens c d with
            | (.ok (some v), c, d) => closeAnd tokens tag (.argStmt tag (some v)) c d
            | (.ok none, c, d) => failAtCursor _ tokens c .EXPECTED_TOKEN_MISSING d
            | (.err, c, d) => (.err, c, d)
            | (.crash, c, d) => (.crash, c, d)
            | (.fuel, c, d) => (.fuel, c, d))
       | (.err, c, d) => (.err, c, d)
       | (.crash, c, d) => (.crash, c, d)
       | (.fuel, c, d) => (.fuel, c, d))
    | .callP =>
      (match parse_opening_tag tokens fuel (str "call") c d with
       | (.ok (tag, props), c, d) =>
         (match props.find? (fun p => p.1.data = str "who") with
          | none => failAtTok _ c .EXPECTED_TOKEN_MISSING d
          | some pw =>
            match litValOf pw.2 with
            | .ok who => parseRun fuel (.callLoop tag who []) tokens c d
            | _ => (.crash, c, d))
       | (.err, c, d) => (.err, c, d)
       | (.crash, c, d) => (.crash, c, d)
       | (.fuel, c, d) => (.fuel, c, d))
    | .callLoop tag who args =>
      if 0 < c then
        match tokAt tokens c with
        | none => (.crash, c, d)
        | some t =>
          if tag.depth < t.depth then
            match parseRun fuel .argP tokens c d with
            | (.ok (some a), c, d) =>
              parseRun fuel (.callLoop tag who (args ++ [a])) tokens c d
            | (.ok none, c, d) => closeAnd tokens tag (.callStmt tag who args) c d
            | (.err, c, d) =>
              (match synchronize tokens tag c with
               | none => (.crash, c, d)
               | some c => parseRun fuel (.callLoop tag who args) tokens c d)
            | (.crash, c, d) => (.crash, c, d)
            | (.fuel, c, d) => (.fuel, c, d)
          else closeAnd tokens tag (.callStmt tag who args) c d
      else closeAnd tokens tag (.callStmt tag who args) c d
    | .letP =>
      (match parse_opening_tag tokens fuel (str "let") c d with
       | (.ok (tag, props), c, d) =>
         (match props.find? (fun p => p.1.data = str "name") with
          | none => failAtTok _ c .EXPECTED_TOKEN_MISSING d
          | some pn =>
            match litValOf pn.2 with
            | .ok nm =>
              (match props.find? (fun p => p.1.data = str "type") with
               | none => failAtTok _ c .EXPECTED_TOKEN_MISSING d
               | some pt =>
                 match litValOf pt.2 with
                 | .ok ty =>
                   (match parse_expression tokens c d with
                    | (.ok (some v), c, d) =>
                      closeAnd tokens tag (.letStmt tag nm ty (some v)) c d
                    | (.ok none, c, d) => failAtCursor _ tokens c .EXPECTED_TOKEN_MISSING d
                    | (.err, c, d) => (.err, c, d)
                    | (.crash, c, d) => (.crash, c, d)
                    | (.fuel, c, d) => (.fuel, c, d))
                 | _ => (.crash, c, d))
            | _ => (.crash, c, d))
       | (.err, c, d) => (.err, c, d)
       | (.crash, c, d) => (.crash, c, d)
       | (.fuel, c, d) => (.fuel, c, d))
    | .retP =>
      (match parse_opening_tag tokens fuel (str "return") c d with
       | (.ok (tag, props), c, d) =>
         (match props.find? (fun p => p.1.data = str "value") with
          | some _ => (.crash, c, d)
          | none =>
            match parse_expression tokens c d with
            | (.ok v?, c, d) => closeAnd tokens tag (.retStmt tag [] v?) c d
            | (.err, c, d) => (.err, c, d)
            | (.crash, c, d) => (.crash, c, d)
            | (.fuel, c, d) => (.fuel, c, d))
       | (.err, c, d) => (.err, c, d)
       | (.crash, c, d) => (.crash, c, d)
       | (.fuel, c, d) => (.fuel, c, d))
    | .ifP =>
      (match parse_opening_tag tokens fuel (str "if") c d with
       | (.ok (_tag, props), c, d) =>
         (match props.find? (fun p => p.1.data = str "condition") with
          | none => failAtTok _ c .EXPECTED_TOKEN_MISSING d
          | some _ => (.crash, c, d))
       | (.err, c, d) => (.err, c, d)
       | (.crash, c, d) => (.crash, c, d)
       | (.fuel, c, d) => (.fuel, c, d))
    | .stmtP =>
      (match tokAt tokens (c - 1) with
       | none => (.crash, c, d)
       | some t1 =>
         if t1.data = str "let" then parseRun fuel .letP tokens c d
         else if t1.data = str "call" then parseRun fuel .callP tokens c d
         else if t1.data = str "return" then parseRun fuel .retP tokens c d
         else if t1.data = str "if" then parseRun fuel .ifP tokens c d
         else (.ok none, c, d))
    | .funcP =>
      (match parse_opening_tag tokens fuel (str "function") c d with
       | (.ok (tag, props), c, d) =>
         (match findIdxProp (str "name") props with
          | none => failAtTok _ c .EXPECTED_TOKEN_MISSING d
          | some (iN, pN) =>
            let d := if iN ≠ 0 then warnPos d else d
            (match (if iN = 0 then litValOf pN.2 else .ok []) with
             | .ok name =>
               (match findIdxProp (str "type") props with
                | none => failAtTok _ c .EXPECTED_TOKEN_MISSING d
                | some (iT, pT) =>
                  let d := if iT ≠ 1 then warnPos d else d
                  (match (if iT = 1 then litValOf pT.2 else .ok []) with
                   | .ok ty =>
                     (match paramsOf (props.drop 2) with
                      | .ok params => parseRun fuel (.funcLoop tag ty params name []) tokens c d
                      | _ => (.crash, c, d))
                   | _ => (.crash, c, d)))
             | _ => (.crash, c, d)))
       | (.err, c, d) => (.err, c, d)
       | (.crash, c, d) => (.crash, c, d)
       | (.fuel, c, d) => (.fuel, c, d))
    | .funcLoop tag ty params name scope =>
      if 0 < c then
        match tokAt tokens c with
        | none => (.crash, c, d)
        | some t =>
          if tag.depth < t.depth then
            match parseRun fuel .stmtP tokens c d with
            | (.ok (some n), c, d) =>
              parseRun fuel (.funcLoop tag ty params name (scope ++ [n])) tokens c d
            | (.ok none, c, d) => fnFixupClose tokens tag ty params name scope c d
            | (.err, c, d) =>
              (match synchronize tokens tag c with
               | none => (.crash, c, d)
               | some c => parseRun fuel (.funcLoop tag ty params name scope) tokens c d)
            | (.crash, c, d) => (.crash, c, d)
            | (.fuel, c, d) => (.fuel, c, d)
          else fnFixupClose tokens tag ty params name scope c d
      else fnFixupClose tokens tag ty params name scope c d

/-- `parse_function(tokens, cursor)` as a standalone entry point. -/
def parse_function (fuel : Nat) (tokens : List Token) (c : Int) (d : Diags) :
    PR (Option Node) :=
  parseRun (fuel + 1) .funcP tokens c d

end XmlcP

namespace XmlangParseFacts
open XUtil Xmlang

theorem findIdxP_some {α : Type} (p : α → Bool) :
    ∀ (l : List α) (i : Nat), findIdxP p l = some i → ∃ x, l.get? i = some x ∧ p x := by
  intro l
  induction l with
  | nil => intro i h; simp [findIdxP] at h
  | cons x xs ih =>
    intro i h
    rw [findIdxP] at h
    split at h
    · injection h with h; subst h; exact ⟨x, rfl, by assumption⟩
    · match i, h with
      | 0, h => simp at h
      | i + 1, h =>
        simp only [Option.map_eq_some'] at h
        obtain ⟨j, hj, hji⟩ := h
        have hji' : j = i := by omega
        subst hji'
        obtain ⟨y, hy, hp⟩ := ih j hj
        exact ⟨y, by simpa using hy, hp⟩

theorem any_mapAtIdx {α : Type} (p : α → Bool) (f : α → α) :
    ∀ (l : List α) (i : Nat) (x : α), l.get? i = some x → p (f x) →
      (mapAtIdx l i f).any p := by
  intro l
  induction l with
  | nil => intro i x h; simp at h
  | cons z zs ih =>
    intro i x h hp
    match i, h with
    | 0, h =>
      injection h with h; subst h
      simp [mapAtIdx, hp]
    | i + 1, h =>
      simp only [List.get?_cons_succ] at h
      simp [mapAtIdx, ih i x h hp]

theorem getLast_of_any {α : Type} (p : α → Bool) (l : List α)
    (h1 : l.any p) (h2 : ¬ l.dropLast.any p) : ∃ r, l.getLast? = some r ∧ p r := by
  induction l using List.reverseRecOn with
  | nil => simp at h1
  | append_singleton l' a _ =>
    rw [List.dropLast_concat] at h2
    rw [List.any_append] at h1
    have ha : p a := by
      rcases Bool.or_eq_true_iff.mp h1 with h | h
      · exact absurd h h2
      · simpa using h
    exact ⟨a, by simp, ha⟩

end XmlangParseFacts

namespace XmlangParseFacts
open XUtil Xmlang

theorem xmlang_fnFixupClose_ok (tokens : List Token) (tag : Token)
    (nm res : List Char) (ps : List (List Char × List Char)) (sc : List Node)
    (c : Int) (d : Diags) (n : Node) (c' : Int) (d' : Diags)
    (h : fnFixupClose tokens tag nm res ps sc c d = (.ok (some n), c', d')) :
    ∃ sc₂, n = .functionDecl tag nm res ps sc₂ ∧ sc₂.any isRet := by
  rw [fnFixupClose] at h
  rw [closeAnd] at h
  split at h
  case h_1 =>
    simp only [Prod.mk.injEq, Res.ok.injEq, Option.some.injEq] at h
    obtain ⟨hn, _, _⟩ := h
    subst hn
    refine ⟨_, rfl, ?_⟩
    by_cases hany : sc.any isRet
    · simp [hany]
    · simp [hany, isRet]
  all_goals simp at h

set_option maxHeartbeats 1000000 in
theorem xmlang_funcLoop_ret :
    ∀ (fuel : Nat) (tag : Token) (nm res : List Char)
      (ps : List (List Char × List Char)) (sc : List Node) (tokens : List Token)
      (c : Int) (d : Diags) (n : Node) (c' : Int) (d' : Diags),
      parseRun fuel (.funcLoop tag nm res ps sc) tokens c d = (.ok (some n), c', d') →
      ∃ sc₂, n = .functionDecl tag nm res ps sc₂ ∧ sc₂.any isRet := by
  intro fuel
  induction fuel with
  | zero =>
    intro tag nm res ps sc tokens c d n c' d' h
    simp [parseRun] at h
  | succ f ih =>
    intro tag nm res ps sc tokens c d n c' d' h
    rw [parseRun] at h
    repeat' split at h
    all_goals
      first
      | (exact absurd h (by simp))
      | exact xmlang_fnFixupClose_ok _ _ _ _ _ _ _ _ _ _ _ h
      | exact ih _ _ _ _ _ _ _ _ _ _ _ h

end XmlangParseFacts

namespace XmlcParseFacts
open XUtil XmlcP

theorem xmlc_fnFixupClose_ok (tokens : List Token) (tag : Token)
    (ty : List Char) (ps : List (List Char × List Char)) (nm : List Char)
    (sc : List Node) (c : Int) (d : Diags) (n : Node) (c' : Int) (d' : Diags)
    (h : fnFixupClose tokens tag ty ps nm sc c d = (.ok (some n), c', d')) :
    ∃ sc₂, n = .functionDecl tag ty ps nm sc₂ ∧ sc₂.any isRet := by
  rw [fnFixupClose] at h
  split at h
  case h_1 =>
    split at h
    · rw [closeAnd] at h
      split at h
      case h_1 =>
        simp only [Prod.mk.injEq, Res.ok.injEq, Option.some.injEq] at h
        obtain ⟨hn, _, _⟩ := h
        subst hn
        exact ⟨_, rfl, by simp [isRet]⟩
      all_goals simp at h
    · simp [failAtTok] at h
  case h_2 i hidx =>
    rw [closeAnd] at h
    split at h
    case h_1 =>
      simp only [Prod.mk.injEq, Res.ok.injEq, Option.some.injEq] at h
      obtain ⟨hn, _, _⟩ := h
      subst hn
      refine ⟨_, rfl, ?_⟩
      obtain ⟨x, hx, hpx⟩ := XmlangParseFacts.findIdxP_some isRet sc i hidx
      refine XmlangParseFacts.any_mapAtIdx isRet (setRetType ty) sc i x hx ?_
      match x, hpx with
      | .retStmt t ty0 v, _ => simp [setRetType, isRet]
    all_goals simp at h

set_option maxHeartbeats 1000000 in
theorem xmlc_funcLoop_ret :
    ∀ (fuel : Nat) (tag : Token) (ty : List Char)
      (ps : List (List Char × List Char)) (nm : List Char) (sc : List Node)
      (tokens : List Token) (c : Int) (d : Diags) (n : Node) (c' : Int) (d' : Diags),
      parseRun fuel (.funcLoop tag ty ps nm sc) tokens c d = (.ok (some n), c', d') →
      ∃ sc₂, n = .functionDecl tag ty ps nm sc₂ ∧ sc₂.any isRet := by
  intro fuel
  induction fuel with
  | zero =>
    intro tag ty ps nm sc tokens c d n c' d' h
    simp [parseRun] at h
  | succ f ih =>
    intro tag ty ps nm sc tokens c d n c' d' h
    rw [parseRun] at h
    repeat' split at h
    all_goals
      first
      | (exact absurd h (by simp))
      | exact xmlc_fnFixupClose_ok _ _ _ _ _ _ _ _ _ _ _ h
      | exact ih _ _ _ _ _ _ _ _ _ _ _ h

theorem xmlc_missing_return_err (tokens : List Token) (tag : Token)
    (ty : List Char) (ps : List (List Char × List Char)) (nm : List Char)
    (sc : List Node) (c : Int) (d : Diags)
    (hty : ty ≠ str "none") (hnr : findIdxP isRet sc = none) :
    fnFixupClose tokens tag ty ps nm sc c d
      = (.err, c, ⟨d.errors ++ [.MISSING_RETURN_STATEMENT], d.warns⟩) := by
  rw [fnFixupClose, hnr]
  simp [hty, failAtTok]

end XmlcParseFacts
namespace XmlangParseFacts
open XUtil Xmlang

theorem mem_mapAtIdx {α : Type} (f : α → α) :
    ∀ (l : List α) (i : Nat) (x : α), l.get? i = some x → f x ∈ mapAtIdx l i f := by
  intro l
  induction l with
  | nil => intro i x h; simp at h
  | cons a as ih =>
    intro i x h
    match i, h with
    | 0, h =>
      simp only [List.get?] at h
      injection h with h
      subst h
      simp [mapAtIdx]
    | i + 1, h =>
      simp only [List.get?] at h
      exact List.mem_cons_of_mem _ (ih i x h)

theorem mem_mapAtIdx_of_ne {α : Type} (f : α → α) :
    ∀ (l : List α) (i : Nat) (y w : α), l.get? i = some y → w ∈ l → w ≠ y →
      w ∈ mapAtIdx l i f := by
  intro l
  induction l with
  | nil => intro i y w h; simp at h
  | cons a as ih =>
    intro i y w h hw hne
    match i, h with
    | 0, h =>
      simp only [List.get?] at h
      injection h with h
      subst h
      rcases List.mem_cons.mp hw with h | h
      · exact absurd h hne
      · exact List.mem_cons_of_mem _ h
    | i + 1, h =>
      simp only [List.get?] at h
      rcases List.mem_cons.mp hw with h' | h'
      · subst h'; exact List.mem_cons_self _ _
      · exact List.mem_cons_of_mem _ (ih i y w h h' hne)

theorem mem_insertIdxN {α : Type} (a : α) :
    ∀ (l : List α) (n : Nat) (w : α), w ∈ l → w ∈ insertIdxN l n a := by
  intro l
  induction l with
  | nil => intro n w h; simp at h
  | cons x xs ih =>
    intro n w h
    match n with
    | 0 => exact List.mem_cons_of_mem _ h
    | n + 1 =>
      rcases List.mem_cons.mp h with h' | h'
      · subst h'; exact List.mem_cons_self _ _
      · exact List.mem_cons_of_mem _ (ih n w h')

theorem insertIdxN_mem_one {α : Type} (a x : α) (xs : List α) :
    a ∈ insertIdxN (x :: xs) 1 a := by
  simp [insertIdxN]

theorem mapAtIdx_ne_nil {α : Type} (f : α → α) (l : List α) (i : Nat) (h : l ≠ []) :
    mapAtIdx l i f ≠ [] := by
  match l, h with
  | x :: xs, _ => cases i <;> simp [mapAtIdx]

theorem xmlang_closeAnd_ok (tokens : List Token) (tag : Token) (m : Node)
    (c : Int) (d : Diags) (n : Node) (c' : Int) (d' : Diags)
    (h : closeAnd tokens tag m c d = (.ok (some n), c', d')) : n = m := by
  rw [closeAnd] at h
  split at h
  case h_1 =>
    simp only [Prod.mk.injEq, Res.ok.injEq, Option.some.injEq] at h
    exact h.1.symm
  all_goals simp at h

theorem fn_named_ne (n1 n2 : List Char) (w y : Node)
    (h1 : isFnNamed n1 w = true) (h2 : isFnNamed n2 y = true) (hne : n1 ≠ n2) :
    w ≠ y := by
  intro he
  subst he
  match w, h1, h2 with
  | .functionDecl t nm r ps s, h1, h2 =>
    simp only [isFnNamed, decide_eq_true_eq] at h1 h2
    exact hne (h1 ▸ h2 ▸ rfl)

def fnLastParam : Node → Option (List Char × List Char)
  | .functionDecl _ _ _ ps _ => ps.getLast?
  | _ => none

theorem xmlang_classFixupClose_ok (tokens : List Token) (tag : Token)
    (name : List Char) (inherits : List (List Char)) (sc : List Node)
    (c : Int) (d : Diags) (n : Node) (c' : Int) (d' : Diags)
    (h : classFixupClose tokens tag name inherits sc c d = (.ok (some n), c', d')) :
    ∃ sc₂, n = .classDecl tag name inherits sc₂ ∧
      (∃ f, f ∈ sc₂ ∧ isFnNamed (str "ctor") f = true ∧
        fnLastParam f = some (str "self", name)) ∧
      (∃ f, f ∈ sc₂ ∧ isFnNamed (str "dtor") f = true ∧
        fnLastParam f = some (str "self", name)) := by
  rw [classFixupClose] at h
  have hn := xmlang_closeAnd_ok _ _ _ _ _ _ _ _ h
  refine ⟨_, hn, ?_⟩
  clear h hn
  have step1 : ∀ s1 : List Node,
      (s1 = match findIdxP (isFnNamed (str "ctor")) sc with
            | none => Node.functionDecl tokenDefault (str "ctor") (str "none")
                [(str "self", name)] [] :: sc
            | some i => mapAtIdx sc i (appendSelfParam name)) →
      s1 ≠ [] ∧ ∃ f, f ∈ s1 ∧ isFnNamed (str "ctor") f = true ∧
        fnLastParam f = some (str "self", name) := by
    intro s1 hs1
    cases hc : findIdxP (isFnNamed (str "ctor")) sc with
    | none =>
      rw [hc] at hs1
      subst hs1
      refine ⟨by simp, _, List.mem_cons_self _ _, by simp [isFnNamed], by simp [fnLastParam]⟩
    | some i =>
      rw [hc] at hs1
      subst hs1
      obtain ⟨x, hx, hpx⟩ := findIdxP_some _ sc i hc
      have hnil : sc ≠ [] := by intro he; subst he; simp at hx
      refine ⟨mapAtIdx_ne_nil _ _ _ hnil, ?_⟩
      match x, hpx with
      | .functionDecl t nm r ps s, hpx =>
        simp only [isFnNamed, decide_eq_true_eq] at hpx
        subst hpx
        refine ⟨_, mem_mapAtIdx (appendSelfParam name) sc i _ hx, ?_, ?_⟩
        · simp [appendSelfParam, isFnNamed]
        · simp [appendSelfParam, fnLastParam]
  obtain ⟨hnil, w, hw, hwn, hwl⟩ := step1 _ rfl
  cases hd : findIdxP (isFnNamed (str "dtor"))
      (match findIdxP (isFnNamed (str "ctor")) sc with
       | none => Node.functionDecl tokenDefault (str "ctor") (str "none")
           [(str "self", name)] [] :: sc
       | some i => mapAtIdx sc i (appendSelfParam name)) with
  | none =>
    dsimp only
    constructor
    · exact ⟨w, mem_insertIdxN _ _ _ _ hw, hwn, hwl⟩
    · match h' : (match findIdxP (isFnNamed (str "ctor")) sc with
        | none => Node.functionDecl tokenDefault (str "ctor") (str "none")
            [(str "self", name)] [] :: sc
        | some i => mapAtIdx sc i (appendSelfParam name)), hnil with
      | x :: xs, _ =>
        refine ⟨_, insertIdxN_mem_one _ x xs, by simp [isFnNamed], by simp [fnLastParam]⟩
  | some j =>
    dsimp only
    obtain ⟨y, hy, hpy⟩ := findIdxP_some _ _ j hd
    constructor
    · have hwy : w ≠ y := fn_named_ne (str "ctor") (str "dtor") w y hwn hpy (by decide)
      exact ⟨w, mem_mapAtIdx_of_ne _ _ j y w hy hw hwy, hwn, hwl⟩
    · match y, hpy with
      | .functionDecl t nm r ps s, hpy =>
        simp only [isFnNamed, decide_eq_true_eq] at hpy
        subst hpy
        refine ⟨_, mem_mapAtIdx (appendSelfParam name) _ j _ hy, ?_, ?_⟩
        · simp [appendSelfParam, isFnNamed]
        · simp [appendSelfParam, fnLastParam]

set_option maxHeartbeats 1000000 in
theorem xmlang_classLoop_ok :
    ∀ (fuel : Nat) (tag : Token) (name : List Char) (inherits : List (List Char))
      (sc : List Node) (tokens : List Token)
      (c : Int) (d : Diags) (n : Node) (c' : Int) (d' : Diags),
      parseRun fuel (.classLoop tag name inherits sc) tokens c d = (.ok (some n), c', d') →
      ∃ sc₂, n = .classDecl tag name inherits sc₂ ∧
        (∃ f, f ∈ sc₂ ∧ isFnNamed (str "ctor") f = true ∧
          fnLastParam f = some (str "self", name)) ∧
        (∃ f, f ∈ sc₂ ∧ isFnNamed (str "dtor") f = true ∧
          fnLastParam f = some (str "self", name)) := by
  intro fuel
  induction fuel with
  | zero =>
    intro tag name inherits sc tokens c d n c' d' h
    simp [parseRun] at h
  | succ f ih =>
    intro tag name inherits sc tokens c d n c' d' h
    rw [parseRun] at h
    repeat' split at h
    all_goals
      first
      | (exact absurd h (by simp))
      | exact xmlang_classFixupClose_ok _ _ _ _ _ _ _ _ _ _ h
      | exact ih _ _ _ _ _ _ _ _ _ _ h

end XmlangParseFacts
namespace XmlangParseFacts
open XUtil Xmlang

set_option maxHeartbeats 1000000 in
theorem xmlang_parse_function_ret (fuel : Nat) (tokens : List Token)
    (c : Int) (d : Diags) (n : Node) (c' : Int) (d' : Diags)
    (h : parse_function fuel tokens c d = (.ok (some n), c', d')) :
    ∃ tag nm res ps sc, n = .functionDecl tag nm res ps sc ∧ sc.any isRet := by
  rw [parse_function, parseRun] at h
  repeat' split at h
  all_goals
    first
    | (simp [failAtTok] at h; done)
    | (obtain ⟨sc₂, hn, ha⟩ := xmlang_funcLoop_ret _ _ _ _ _ _ _ _ _ _ _ _ h
       exact ⟨_, _, _, _, _, hn, ha⟩)

set_option maxHeartbeats 1000000 in
theorem xmlang_parse_class_ok (fuel : Nat) (tokens : List Token)
    (c : Int) (d : Diags) (n : Node) (c' : Int) (d' : Diags)
    (h : parse_class fuel tokens c d = (.ok (some n), c', d')) :
    ∃ tag name inherits sc₂, n = .classDecl tag name inherits sc₂ ∧
      (∃ f, f ∈ sc₂ ∧ isFnNamed (str "ctor") f = true ∧
        fnLastParam f = some (str "self", name)) ∧
      (∃ f, f ∈ sc₂ ∧ isFnNamed (str "dtor") f = true ∧
        fnLastParam f = some (str "self", name)) := by
  rw [parse_class, parseRun] at h
  repeat' split at h
  all_goals
    first
    | (simp [failAtTok] at h; done)
    | (obtain ⟨sc₂, hn, ha⟩ := xmlang_classLoop_ok _ _ _ _ _ _ _ _ _ _ _ h
       exact ⟨_, _, _, _, hn, ha⟩)

end XmlangParseFacts

namespace XmlcParseFacts
open XUtil XmlcP

set_option maxHeartbeats 1000000 in
theorem xmlc_parse_function_ret (fuel : Nat) (tokens : List Token)
    (c : Int) (d : Diags) (n : Node) (c' : Int) (d' : Diags)
    (h : parse_function fuel tokens c d = (.ok (some n), c', d')) :
    ∃ tag ty ps nm sc, n = .functionDecl tag ty ps nm sc ∧ sc.any isRet := by
  rw [parse_function, parseRun] at h
  repeat' split at h
  all_goals
    first
    | (simp [failAtTok] at h; done)
    | (obtain ⟨sc₂, hn, ha⟩ := xmlc_funcLoop_ret _ _ _ _ _ _ _ _ _ _ _ _ h
       exact ⟨_, _, _, _, _, hn, ha⟩)

end XmlcParseFacts
namespace XmlangParseFacts
open XUtil Xmlang

/-- Convenience token constructor for concrete xmlang streams. -/
def tk (ty : TokType) (s : String) (dep : Nat) : Token := ⟨str s, ty, 0, 0, dep⟩

/-- Tokens of `<function name="f" result="number"></function>`, reversed as
`parse` stores the stream. -/
def toksC2 : List Token := ([
  tk .LEFT_ANGLE "<" 0, tk .KEYWORD "function" 0,
  tk .IDENTIFIER "name" 0, tk .EQUAL "=" 0, tk .QUOTE "\"" 0, tk .LITERAL "f" 0, tk .QUOTE "\"" 0,
  tk .IDENTIFIER "result" 0, tk .EQUAL "=" 0, tk .QUOTE "\"" 0, tk .LITERAL "number" 0, tk .QUOTE "\"" 0,
  tk .RIGHT_ANGLE ">" 0,
  tk .LEFT_ANGLE "<" 0, tk .SLASH "/" 0, tk .KEYWORD "function" 0, tk .RIGHT_ANGLE ">" 0]).reverse

/-- Tokens of
`<function name="f" result="none"><return></return><call who="println"></call></function>`,
reversed. -/
def toksC3 : List Token := ([
  tk .LEFT_ANGLE "<" 0, tk .KEYWORD "function" 0,
  tk .IDENTIFIER "name" 0, tk .EQUAL "=" 0, tk .QUOTE "\"" 0, tk .LITERAL "f" 0, tk .QUOTE "\"" 0,
  tk .IDENTIFIER "result" 0, tk .EQUAL "=" 0, tk .QUOTE "\"" 0, tk .LITERAL "none" 0, tk .QUOTE "\"" 0,
  tk .RIGHT_ANGLE ">" 0,
  tk .LEFT_ANGLE "<" 1, tk .KEYWORD "return" 1, tk .RIGHT_ANGLE ">" 1,
  tk .LEFT_ANGLE "<" 1, tk .SLASH "/" 1, tk .KEYWORD "return" 1, tk .RIGHT_ANGLE ">" 1,
  tk .LEFT_ANGLE "<" 1, tk .KEYWORD "call" 1,
  tk .IDENTIFIER "who" 1, tk .EQUAL "=" 1, tk .QUOTE "\"" 1, tk .LITERAL "println" 1, tk .QUOTE "\"" 1,
  tk .RIGHT_ANGLE ">" 1,
  tk .LEFT_ANGLE "<" 1, tk .SLASH "/" 1, tk .KEYWORD "call" 1, tk .RIGHT_ANGLE ">" 1,
  tk .LEFT_ANGLE "<" 0, tk .SLASH "/" 0, tk .KEYWORD "function" 0, tk .RIGHT_ANGLE ">" 0]).reverse

end XmlangParseFacts

namespace XmlcParseFacts
open XUtil XmlcP

/-- Convenience token constructor for concrete xmlc streams. -/
def tkx (ty : TokType) (s : String) (dep : Nat) : Token := ⟨str s, ty, 0, 0, dep⟩

/-- Tokens of `<function name="g" type="none"></function>`, reversed. -/
def xtoksB : List Token := ([
  tkx .LEFT_ANGLE "<" 0, tkx .KEYWORD "function" 0,
  tkx .PROPERTY "name" 0, tkx .EQUAL "=" 0, tkx .DOUBLE_QUOTE "\"" 0, tkx .LITERAL "g" 0, tkx .DOUBLE_QUOTE "\"" 0,
  tkx .PROPERTY "type" 0, tkx .EQUAL "=" 0, tkx .DOUBLE_QUOTE "\"" 0, tkx .LITERAL "none" 0, tkx .DOUBLE_QUOTE "\"" 0,
  tkx .RIGHT_ANGLE ">" 0,
  tkx .LEFT_ANGLE "<" 0, tkx .SLASH "/" 0, tkx .KEYWORD "function" 0, tkx .RIGHT_ANGLE ">" 0]).reverse

end XmlcParseFacts

/-- C2: the spec's fatal `MISSING_RETURN_STATEMENT` exists only in the xmlc
parser.  There, `parse_function` with a non-`none` declared type and no
`return` in the scope appends the fatal diagnostic and returns an error, and
every function node it does return has a `return` in its scope.  The xmlang
parser (the other source the claim cites) enforces nothing: every function
node it returns also has a `return` in scope, but only because one is
silently synthesized (see the counterexample). -/
theorem missing_return_enforcement :
    (∀ (tokens : List XmlcP.Token) (tag : XmlcP.Token) (ty : List Char)
       (ps : List (List Char × List Char)) (nm : List Char) (sc : List XmlcP.Node)
       (c : Int) (d : XmlcP.Diags),
       ty ≠ XUtil.str "none" → XUtil.findIdxP XmlcP.isRet sc = none →
       XmlcP.fnFixupClose tokens tag ty ps nm sc c d
         = (.err, c, ⟨d.errors ++ [.MISSING_RETURN_STATEMENT], d.warns⟩)) ∧
    (∀ (fuel : Nat) (tokens : List XmlcP.Token) (c : Int) (d : XmlcP.Diags)
       (n : XmlcP.Node) (c' : Int) (d' : XmlcP.Diags),
       XmlcP.parse_function fuel tokens c d = (.ok (some n), c', d') →
       ∃ tag ty ps nm sc, n = .functionDecl tag ty ps nm sc ∧ sc.any XmlcP.isRet) ∧
    (∀ (fuel : Nat) (tokens : List Xmlang.Token) (c : Int) (d : Xmlang.Diags)
       (n : Xmlang.Node) (c' : Int) (d' : Xmlang.Diags),
       Xmlang.parse_function fuel tokens c d = (.ok (some n), c', d') →
       ∃ tag nm res ps sc, n = .functionDecl tag nm res ps sc ∧ sc.any Xmlang.isRet) :=
  ⟨XmlcParseFacts.xmlc_missing_return_err,
   XmlcParseFacts.xmlc_parse_function_ret,
   XmlangParseFacts.xmlang_parse_function_ret⟩

theorem missing_return_enforcement_witness :
    (XmlcP.fnFixupClose [] XmlcP.tokenDefault (XUtil.str "number") [] (XUtil.str "f")
        [] 0 ⟨[], []⟩
      = (.err, 0, ⟨[] ++ [.MISSING_RETURN_STATEMENT], []⟩)) ∧
    (∃ tag ty ps nm sc,
      XmlcP.Node.functionDecl (XmlcParseFacts.tkx .KEYWORD "function" 0)
          (XUtil.str "none") [] (XUtil.str "g")
          [.retStmt XmlcP.tokenDefault (XUtil.str "none") none]
        = .functionDecl tag ty ps nm sc ∧ sc.any XmlcP.isRet) ∧
    (∃ tag nm res ps sc,
      Xmlang.Node.functionDecl (XmlangParseFacts.tk .KEYWORD "function" 0)
          (XUtil.str "f") (XUtil.str "number") []
          [.returnStmt Xmlang.tokenDefault none]
        = .functionDecl tag nm res ps sc ∧ sc.any Xmlang.isRet) :=
  ⟨missing_return_enforcement.1 [] XmlcP.tokenDefault (XUtil.str "number") []
     (XUtil.str "f") [] 0 ⟨[], []⟩ (by decide) rfl,
   missing_return_enforcement.2.1 50 XmlcParseFacts.xtoksB
     (Int.ofNat XmlcParseFacts.xtoksB.length - 1) ⟨[], []⟩
     (.functionDecl (XmlcParseFacts.tkx .KEYWORD "function" 0) (XUtil.str "none") []
       (XUtil.str "g") [.retStmt XmlcP.tokenDefault (XUtil.str "none") none])
     (-1) ⟨[], []⟩ (by rfl),
   missing_return_enforcement.2.2 50 XmlangParseFacts.toksC2
     (Int.ofNat XmlangParseFacts.toksC2.length - 1) ⟨[], []⟩
     (.functionDecl (XmlangParseFacts.tk .KEYWORD "function" 0) (XUtil.str "f")
       (XUtil.str "number") [] [.returnStmt Xmlang.tokenDefault none])
     (-1) ⟨[], []⟩ (by rfl)⟩

/-- C2 counterexample: xmlang's `parse_function` accepts
`<function name="f" result="number"></function>` — result `"number"`, no
`return` written — with no diagnostics at all: it silently appends an
implicit empty return instead of failing with `MISSING_RETURN_STATEMENT`. -/
theorem missing_return_xmlang_counterexample :
    Xmlang.parse_function 50 XmlangParseFacts.toksC2
        (Int.ofNat XmlangParseFacts.toksC2.length - 1) ⟨[], []⟩
      = (.ok (some (.functionDecl (XmlangParseFacts.tk .KEYWORD "function" 0)
          (XUtil.str "f") (XUtil.str "number") []
          [.returnStmt Xmlang.tokenDefault none])), -1, ⟨[], []⟩) ∧
    XUtil.str "number" ≠ XUtil.str "none" :=
  ⟨rfl, by decide⟩

/-- C3: whenever either parser returns a function node, the scope contains a
`return`; and if the scope before the trailing position has none (i.e. the
only `return` is the implicitly appended one), then the last element is that
`return`.  This holds for every declared result type, not just `"none"`; but
the last element need not be a `return` when the body already had one (see
the counterexample). -/
theorem function_scope_return_position :
    (∀ (fuel : Nat) (tokens : List Xmlang.Token) (c : Int) (d : Xmlang.Diags)
       (n : Xmlang.Node) (c' : Int) (d' : Xmlang.Diags)
       (tag : Xmlang.Token) (nm res : List Char)
       (ps : List (List Char × List Char)) (sc : List Xmlang.Node),
       Xmlang.parse_function fuel tokens c d = (.ok (some n), c', d') →
       n = .functionDecl tag nm res ps sc →
       sc.any Xmlang.isRet ∧
         (sc.dropLast.any Xmlang.isRet = false →
           ∃ r, sc.getLast? = some r ∧ Xmlang.isRet r = true)) ∧
    (∀ (fuel : Nat) (tokens : List XmlcP.Token) (c : Int) (d : XmlcP.Diags)
       (n : XmlcP.Node) (c' : Int) (d' : XmlcP.Diags)
       (tag : XmlcP.Token) (ty : List Char)
       (ps : List (List Char × List Char)) (nm : List Char) (sc : List XmlcP.Node),
       XmlcP.parse_function fuel tokens c d = (.ok (some n), c', d') →
       n = .functionDecl tag ty ps nm sc →
       sc.any XmlcP.isRet ∧
         (sc.dropLast.any XmlcP.isRet = false →
           ∃ r, sc.getLast? = some r ∧ XmlcP.isRet r = true)) := by
  constructor
  · intro fuel tokens c d n c' d' tag nm res ps sc h hn
    obtain ⟨tag2, nm2, res2, ps2, sc2, hn2, hany⟩ :=
      XmlangParseFacts.xmlang_parse_function_ret fuel tokens c d n c' d' h
    rw [hn] at hn2
    injection hn2 with h1 h2 h3 h4 h5
    subst h5
    refine ⟨hany, fun hno => ?_⟩
    exact XmlangParseFacts.getLast_of_any _ _ hany (by simp [hno])
  · intro fuel tokens c d n c' d' tag ty ps nm sc h hn
    obtain ⟨tag2, ty2, ps2, nm2, sc2, hn2, hany⟩ :=
      XmlcParseFacts.xmlc_parse_function_ret fuel tokens c d n c' d' h
    rw [hn] at hn2
    injection hn2 with h1 h2 h3 h4 h5
    subst h5
    refine ⟨hany, fun hno => ?_⟩
    exact XmlangParseFacts.getLast_of_any _ _ hany (by simp [hno])

theorem function_scope_return_position_witness :
    ([Xmlang.Node.returnStmt Xmlang.tokenDefault none].any Xmlang.isRet ∧
      (([Xmlang.Node.returnStmt Xmlang.tokenDefault none].dropLast.any Xmlang.isRet
          = false) →
        ∃ r, [Xmlang.Node.returnStmt Xmlang.tokenDefault none].getLast? = some r ∧
          Xmlang.isRet r = true)) ∧
    ([XmlcP.Node.retStmt XmlcP.tokenDefault (XUtil.str "none") none].any XmlcP.isRet ∧
      (([XmlcP.Node.retStmt XmlcP.tokenDefault (XUtil.str "none") none].dropLast.any
          XmlcP.isRet = false) →
        ∃ r, [XmlcP.Node.retStmt XmlcP.tokenDefault (XUtil.str "none")
          none].getLast? = some r ∧ XmlcP.isRet r = true)) :=
  ⟨function_scope_return_position.1 50 XmlangParseFacts.toksC2
     (Int.ofNat XmlangParseFacts.toksC2.length - 1) ⟨[], []⟩
     (.functionDecl (XmlangParseFacts.tk .KEYWORD "function" 0) (XUtil.str "f")
       (XUtil.str "number") [] [.returnStmt Xmlang.tokenDefault none])
     (-1) ⟨[], []⟩
     (XmlangParseFacts.tk .KEYWORD "function" 0) (XUtil.str "f") (XUtil.str "number")
     [] [.returnStmt Xmlang.tokenDefault none] (by rfl) rfl,
   function_scope_return_position.2 50 XmlcParseFacts.xtoksB
     (Int.ofNat XmlcParseFacts.xtoksB.length - 1) ⟨[], []⟩
     (.functionDecl (XmlcParseFacts.tkx .KEYWORD "function" 0) (XUtil.str "none") []
       (XUtil.str "g") [.retStmt XmlcP.tokenDefault (XUtil.str "none") none])
     (-1) ⟨[], []⟩
     (XmlcParseFacts.tkx .KEYWORD "function" 0) (XUtil.str "none") []
     (XUtil.str "g") [.retStmt XmlcP.tokenDefault (XUtil.str "none") none] (by rfl) rfl⟩

/-- C3 counterexample: in
`<function name="f" result="none"><return></return><call who="println"></call></function>`
the declared result is `"none"` and the parse succeeds, but the last element
of the scope is the `call` statement, not a `Return`. -/
theorem function_scope_return_counterexample :
    Xmlang.parse_function 50 XmlangParseFacts.toksC3
        (Int.ofNat XmlangParseFacts.toksC3.length - 1) ⟨[], []⟩
      = (.ok (some (.functionDecl (XmlangParseFacts.tk .KEYWORD "function" 0)
          (XUtil.str "f") (XUtil.str "none") []
          [.returnStmt (XmlangParseFacts.tk .KEYWORD "return" 1) none,
           .callStmt (XmlangParseFacts.tk .KEYWORD "call" 1) (XUtil.str "println") []])),
         -1, ⟨[], []⟩) ∧
    ([Xmlang.Node.returnStmt (XmlangParseFacts.tk .KEYWORD "return" 1) none,
      Xmlang.Node.callStmt (XmlangParseFacts.tk .KEYWORD "call" 1)
        (XUtil.str "println") []].getLast?
      = some (.callStmt (XmlangParseFacts.tk .KEYWORD "call" 1)
          (XUtil.str "println") [])) ∧
    Xmlang.isRet (.callStmt (XmlangParseFacts.tk .KEYWORD "call" 1)
        (XUtil.str "println") []) = false :=
  ⟨rfl, rfl, rfl⟩
namespace XmlangParseFacts
open XUtil Xmlang

/-- Tokens of `<class name="P"><function name="ctor" result="none" a="number"></function></class>`, reversed. -/
def toksC4a : List Token := ([
  tk .LEFT_ANGLE "<" 0, tk .KEYWORD "class" 0,
  tk .IDENTIFIER "name" 0, tk .EQUAL "=" 0, tk .QUOTE "\"" 0, tk .LITERAL "P" 0, tk .QUOTE "\"" 0,
  tk .RIGHT_ANGLE ">" 0,
  tk .LEFT_ANGLE "<" 1, tk .KEYWORD "function" 1,
  tk .IDENTIFIER "name" 1, tk .EQUAL "=" 1, tk .QUOTE "\"" 1, tk .LITERAL "ctor" 1, tk .QUOTE "\"" 1,
  tk .IDENTIFIER "result" 1, tk .EQUAL "=" 1, tk .QUOTE "\"" 1, tk .LITERAL "none" 1, tk .QUOTE "\"" 1,
  tk .IDENTIFIER "a" 1, tk .EQUAL "=" 1, tk .QUOTE "\"" 1, tk .LITERAL "number" 1, tk .QUOTE "\"" 1,
  tk .RIGHT_ANGLE ">" 1,
  tk .LEFT_ANGLE "<" 1, tk .SLASH "/" 1, tk .KEYWORD "function" 1, tk .RIGHT_ANGLE ">" 1,
  tk .LEFT_ANGLE "<" 0, tk .SLASH "/" 0, tk .KEYWORD "class" 0, tk .RIGHT_ANGLE ">" 0]).reverse

/-- Tokens of `<class name="Q"><ctor></ctor><ctor></ctor></class>`, reversed. -/
def toksC4b : List Token := ([
  tk .LEFT_ANGLE "<" 0, tk .KEYWORD "class" 0,
  tk .IDENTIFIER "name" 0, tk .EQUAL "=" 0, tk .QUOTE "\"" 0, tk .LITERAL "Q" 0, tk .QUOTE "\"" 0,
  tk .RIGHT_ANGLE ">" 0,
  tk .LEFT_ANGLE "<" 1, tk .KEYWORD "ctor" 1, tk .RIGHT_ANGLE ">" 1,
  tk .LEFT_ANGLE "<" 1, tk .SLASH "/" 1, tk .KEYWORD "ctor" 1, tk .RIGHT_ANGLE ">" 1,
  tk .LEFT_ANGLE "<" 1, tk .KEYWORD "ctor" 1, tk .RIGHT_ANGLE ">" 1,
  tk .LEFT_ANGLE "<" 1, tk .SLASH "/" 1, tk .KEYWORD "ctor" 1, tk .RIGHT_ANGLE ">" 1,
  tk .LEFT_ANGLE "<" 0, tk .SLASH "/" 0, tk .KEYWORD "class" 0, tk .RIGHT_ANGLE ">" 0]).reverse

/-- Tokens of `<class name="R"></class>`, reversed. -/
def toksC4w : List Token := ([
  tk .LEFT_ANGLE "<" 0, tk .KEYWORD "class" 0,
  tk .IDENTIFIER "name" 0, tk .EQUAL "=" 0, tk .QUOTE "\"" 0, tk .LITERAL "R" 0, tk .QUOTE "\"" 0,
  tk .RIGHT_ANGLE ">" 0,
  tk .LEFT_ANGLE "<" 0, tk .SLASH "/" 0, tk .KEYWORD "class" 0, tk .RIGHT_ANGLE ">" 0]).reverse

end XmlangParseFacts

/-- C4: whenever xmlang's `parse_class` returns a class node, its scope
contains a function named `ctor` and one named `dtor` whose LAST parameter
is `(self, ClassName)` (the synthesized ones have it as their only
parameter, and a user-written ctor/dtor gets it appended after its own
parameters — not prepended).  Neither uniqueness nor first-position holds:
see the counterexample. -/
theorem class_ctor_dtor_shape :
    ∀ (fuel : Nat) (tokens : List Xmlang.Token) (c : Int) (d : Xmlang.Diags)
      (n : Xmlang.Node) (c' : Int) (d' : Xmlang.Diags) (tag : Xmlang.Token)
      (name : List Char) (inherits : List (List Char)) (sc : List Xmlang.Node),
      Xmlang.parse_class fuel tokens c d = (.ok (some n), c', d') →
      n = .classDecl tag name inherits sc →
      (∃ f, f ∈ sc ∧ Xmlang.isFnNamed (XUtil.str "ctor") f = true ∧
        XmlangParseFacts.fnLastParam f = some (XUtil.str "self", name)) ∧
      (∃ f, f ∈ sc ∧ Xmlang.isFnNamed (XUtil.str "dtor") f = true ∧
        XmlangParseFacts.fnLastParam f = some (XUtil.str "self", name)) := by
  intro fuel tokens c d n c' d' tag name inherits sc h hn
  obtain ⟨tag2, name2, inherits2, sc3, hn3, hc3, hd3⟩ :=
    XmlangParseFacts.xmlang_parse_class_ok fuel tokens c d n c' d' h
  rw [hn] at hn3
  injection hn3 with h1 h2 h3 h4
  subst h2
  subst h4
  exact ⟨hc3, hd3⟩

theorem class_ctor_dtor_shape_witness :
    (∃ f, f ∈ [Xmlang.Node.functionDecl Xmlang.tokenDefault (XUtil.str "ctor")
          (XUtil.str "none") [(XUtil.str "self", XUtil.str "R")] [],
        Xmlang.Node.functionDecl Xmlang.tokenDefault (XUtil.str "dtor")
          (XUtil.str "none") [(XUtil.str "self", XUtil.str "R")] []] ∧
      Xmlang.isFnNamed (XUtil.str "ctor") f = true ∧
      XmlangParseFacts.fnLastParam f = some (XUtil.str "self", XUtil.str "R")) ∧
    (∃ f, f ∈ [Xmlang.Node.functionDecl Xmlang.tokenDefault (XUtil.str "ctor")
          (XUtil.str "none") [(XUtil.str "self", XUtil.str "R")] [],
        Xmlang.Node.functionDecl Xmlang.tokenDefault (XUtil.str "dtor")
          (XUtil.str "none") [(XUtil.str "self", XUtil.str "R")] []] ∧
      Xmlang.isFnNamed (XUtil.str "dtor") f = true ∧
      XmlangParseFacts.fnLastParam f = some (XUtil.str "self", XUtil.str "R")) :=
  class_ctor_dtor_shape 50 XmlangParseFacts.toksC4w
    (Int.ofNat XmlangParseFacts.toksC4w.length - 1) ⟨[], []⟩
    (.classDecl (XmlangParseFacts.tk .KEYWORD "class" 0) (XUtil.str "R") []
      [.functionDecl Xmlang.tokenDefault (XUtil.str "ctor") (XUtil.str "none")
         [(XUtil.str "self", XUtil.str "R")] [],
       .functionDecl Xmlang.tokenDefault (XUtil.str "dtor") (XUtil.str "none")
         [(XUtil.str "self", XUtil.str "R")] []])
    (-1) ⟨[], []⟩ (XmlangParseFacts.tk .KEYWORD "class" 0) (XUtil.str "R") []
    [.functionDecl Xmlang.tokenDefault (XUtil.str "ctor") (XUtil.str "none")
       [(XUtil.str "self", XUtil.str "R")] [],
     .functionDecl Xmlang.tokenDefault (XUtil.str "dtor") (XUtil.str "none")
       [(XUtil.str "self", XUtil.str "R")] []]
    (by rfl) rfl

/-- C4 counterexample: (a) in `<class name="P"><function name="ctor"
result="none" a="number"></function></class>` the parsed ctor's parameter
list is `[(a, number), (self, P)]` — `(self, P)` is appended last, so the
FIRST parameter is not `(self, P)`; (b) `<class
name="Q"><ctor></ctor><ctor></ctor></class>` parses successfully with TWO
functions named `ctor` in the class scope (only the first gets `(self, Q)`),
so "exactly one ctor" also fails. -/
theorem class_ctor_dtor_counterexample :
    (Xmlang.parse_class 50 XmlangParseFacts.toksC4a
        (Int.ofNat XmlangParseFacts.toksC4a.length - 1) ⟨[], []⟩
      = (.ok (some (.classDecl (XmlangParseFacts.tk .KEYWORD "class" 0)
          (XUtil.str "P") []
          [.functionDecl (XmlangParseFacts.tk .KEYWORD "function" 1)
             (XUtil.str "ctor") (XUtil.str "none")
             [(XUtil.str "a", XUtil.str "number"), (XUtil.str "self", XUtil.str "P")]
             [.returnStmt Xmlang.tokenDefault none],
           .functionDecl Xmlang.tokenDefault (XUtil.str "dtor") (XUtil.str "none")
             [(XUtil.str "self", XUtil.str "P")] []])), -1, ⟨[], []⟩)) ∧
    ([(XUtil.str "a", XUtil.str "number"),
      (XUtil.str "self", XUtil.str "P")].head? = some (XUtil.str "a", XUtil.str "number")) ∧
    ((XUtil.str "a", XUtil.str "number") ≠ (XUtil.str "self", XUtil.str "P")) ∧
    (Xmlang.parse_class 50 XmlangParseFacts.toksC4b
        (Int.ofNat XmlangParseFacts.toksC4b.length - 1) ⟨[], []⟩
      = (.ok (some (.classDecl (XmlangParseFacts.tk .KEYWORD "class" 0)
          (XUtil.str "Q") []
          [.functionDecl (XmlangParseFacts.tk .KEYWORD "ctor" 1) (XUtil.str "ctor") []
             [(XUtil.str "self", XUtil.str "Q")] [],
           .functionDecl Xmlang.tokenDefault (XUtil.str "dtor") (XUtil.str "none")
             [(XUtil.str "self", XUtil.str "Q")] [],
           .functionDecl (XmlangParseFacts.tk .KEYWORD "ctor" 1) (XUtil.str "ctor")
             [] [] []])), -1, ⟨[], []⟩)) ∧
    (([Xmlang.Node.functionDecl (XmlangParseFacts.tk .KEYWORD "ctor" 1)
          (XUtil.str "ctor") [] [(XUtil.str "self", XUtil.str "Q")] [],
       Xmlang.Node.functionDecl Xmlang.tokenDefault (XUtil.str "dtor")
          (XUtil.str "none") [(XUtil.str "self", XUtil.str "Q")] [],
       Xmlang.Node.functionDecl (XmlangParseFacts.tk .KEYWORD "ctor" 1)
          (XUtil.str "ctor") [] [] []].filter
        (Xmlang.isFnNamed (XUtil.str "ctor"))).length = 2) ∧
    (2 ≠ 1) :=
  ⟨rfl, rfl, by decide, rfl, rfl, by decide⟩
namespace XmlangCG
open XUtil Xmlang

/-- Lowercase hex digit, as `fmt` prints with `x`. -/
def hexDigitChar (n : Nat) : Char :=
  if n < 10 then Char.ofNat (48 + n) else Char.ofNat (87 + n)

/-- Hex digits of `n`, most significant first (auxiliary, fuelled). -/
def hexCharsAux : Nat → Nat → List Char → List Char
  | 0, _, acc => acc
  | fuel + 1, n, acc =>
    let d := hexDigitChar (n % 16)
    if n < 16 then d :: acc else hexCharsAux fuel (n / 16) (d :: acc)

/-- Hex rendering of a natural number. -/
def hexNatChars (n : Nat) : List Char := hexCharsAux (n + 1) n []

/-- `fmt::format("{:#04x}", v)`: `0x`-prefixed lowercase hex, zero-padded to
a total width of four characters (sign before the prefix for negatives). -/
def fmtHash04x (v : Int) : List Char :=
  if v < 0 then
    let ds := hexNatChars (-v).toNat
    '-' :: '0' :: 'x' :: (List.replicate (1 - ds.length) '0' ++ ds)
  else
    let ds := hexNatChars v.toNat
    '0' :: 'x' :: (List.replicate (2 - ds.length) '0' ++ ds)

/-- Leftmost match of `(\$\x7b([a-zA-Z]+)\x7d)` in the literal, returning the
captured identifier (`match.str(2)`), as `std::regex_search` finds it. -/
def argMatch : List Char → Option (List Char)
  | [] => none
  | c :: rest =>
    if c = '$' then
      match rest with
      | [] => none
      | b :: rest2 =>
        if b = braceL then
          let run := rest2.takeWhile isAlphaC
          if run ≠ [] ∧ (rest2.drop run.length).head? = some braceR then some run
          else argMatch rest
        else argMatch rest
    else argMatch rest

/-- `node_type() == STATEMENT`: the xmlang statement nodes. -/
def isStmtNode : Node → Bool
  | .callStmt _ _ _ => true
  | .argumentStmt _ _ => true
  | .returnStmt _ _ => true
  | .letStmt _ _ _ _ => true
  | _ => false

/-- `compile_return`: always `"0x05"`. -/
def compile_return : Res (List Char) := .ok (str "0x05")

/-- `compile_let`: the single `LITERAL` switch case formats
`"0x00 {:#04x} 0x02"` from the literal parsed as an int; a missing or
non-expression value dereferences/casts garbage (crash). -/
def compile_let (value : Option Node) : Res (List Char) :=
  match value with
  | some (.literalExpr _ v) =>
    .ok (str "0x00 " ++ fmtHash04x (readInt v) ++ str " 0x02")
  | _ => .crash

/-- `compile_argument`: asserts the value is a literal expression, returns
`""` when the literal holds no interpolation, asserts the interpolated name
is a known local, and formats `"0x01 0x02 {:#04x} 0x01"` from its index. -/
def compile_argument (vars : List (List Char)) (value : Option Node) :
    Res (List Char) :=
  match value with
  | some (.literalExpr _ v) =>
    (match argMatch v with
     | none => .ok []
     | some nm =>
       match findIdxP (fun w => decide (w = nm)) vars with
       | none => .crash
       | some i => .ok (str "0x01 0x02 " ++ fmtHash04x (Int.ofNat i) ++ str " 0x01"))
  | _ => .crash

/-- The argument loop of `compile_call` (`code += TRY(...) + " "`). -/
def callArgsLoop (vars : List (List Char)) : List Node → Res (List Char)
  | [] => .ok []
  | a :: rest =>
    match a with
    | .argumentStmt _ v =>
      (match compile_argument vars v with
       | .ok s =>
         (match callArgsLoop vars rest with
          | .ok t => .ok (s ++ [' '] ++ t)
          | .err => .err
          | .crash => .crash
          | .fuel => .fuel)
       | .err => .err
       | .crash => .crash
       | .fuel => .fuel)
    | _ => .crash

/-- `compile_call`: compile the arguments, assert `who == "println"`, then
append `"0x04 0x00"`. -/
def compile_call (vars : List (List Char)) (who : List Char)
    (args : List Node) : Res (List Char) :=
  match callArgsLoop vars args with
  | .ok code => if who = str "println" then .ok (code ++ str "0x04 0x00") else .crash
  | .err => .err
  | .crash => .crash
  | .fuel => .fuel

/-- The variable-collecting loop of `compile_function`: `stmt_type()` on a
child that is not a statement is undefined behaviour (crash); `LET`
statements contribute their name. -/
def collectLets : List Node → Res (List (List Char))
  | [] => .ok []
  | n :: rest =>
    if isStmtNode n then
      match collectLets rest with
      | .ok vs =>
        (match n with
         | .letStmt _ nm _ _ => .ok (nm :: vs)
         | _ => .ok vs)
      | .err => .err
      | .crash => .crash
      | .fuel => .fuel
    else .crash

/-- The statement loop of `compile_function`: `CALL`/`LET`/`RETURN` append
their code plus `" "`, `ARGUMENT` matches no switch case and is skipped, and
a non-statement child crashes. -/
def fnStmtsLoop (vars : List (List Char)) : List Node → Res (List Char)
  | [] => .ok []
  | n :: rest =>
    match n with
    | .callStmt _ who args =>
      (match compile_call vars who args with
       | .ok s =>
         (match fnStmtsLoop vars rest with
          | .ok t => .ok (s ++ [' '] ++ t)
          | .err => .err
          | .crash => .crash
          | .fuel => .fuel)
       | .err => .err
       | .crash => .crash
       | .fuel => .fuel)
    | .letStmt _ _ _ v =>
      (match compile_let v with
       | .ok s =>
         (match fnStmtsLoop vars rest with
          | .ok t => .ok (s ++ [' '] ++ t)
          | .err => .err
          | .crash => .crash
          | .fuel => .fuel)
       | .err => .err
       | .crash => .crash
       | .fuel => .fuel)
    | .returnStmt _ _ =>
      (match compile_return with
       | .ok s =>
         (match fnStmtsLoop vars rest with
          | .ok t => .ok (s ++ [' '] ++ t)
          | .err => .err
          | .crash => .crash
          | .fuel => .fuel)
       | .err => .err
       | .crash => .crash
       | .fuel => .fuel)
    | .argumentStmt _ _ => fnStmtsLoop vars rest
    | _ => .crash

/-- `compile_function`: collect the `let` locals, then compile the scope. -/
def compile_function (scope : List Node) : Res (List Char) :=
  match collectLets scope with
  | .ok vars => fnStmtsLoop vars scope
  | .err => .err
  | .crash => .crash
  | .fuel => .fuel

/-- `compile_program`: concatenate the code of the `FUNCTION` declarations,
skipping every other child. -/
def compile_program : List Node → Res (List Char)
  | [] => .ok []
  | n :: rest =>
    match n with
    | .functionDecl _ _ _ _ fsc =>
      (match compile_function fsc with
       | .ok s =>
         (match compile_program rest with
          | .ok t => .ok (s ++ t)
          | .err => .err
          | .crash => .crash
          | .fuel => .fuel)
       | .err => .err
       | .crash => .crash
       | .fuel => .fuel)
    | _ => compile_program rest

/-- One hex digit's value, as `std::num_get` accepts for `std::hex`. -/
def hexVal (c : Char) : Option Nat :=
  if '0' ≤ c ∧ c ≤ '9' then some (c.toNat - 48)
  else if 'a' ≤ c ∧ c ≤ 'f' then some (c.toNat - 87)
  else if 'A' ≤ c ∧ c ≤ 'F' then some (c.toNat - 55)
  else none

def hexDigitsValAux : Nat → List Char → Option Nat
  | acc, [] => some acc
  | acc, c :: r =>
    match hexVal c with
    | some v => hexDigitsValAux (acc * 16 + v) r
    | none => none

/-- `stream >> std::hex >> instruction` on one whitespace-delimited word:
optional sign, optional `0x` prefix, hex digits, reduced into `uint32_t`
(negatives wrap). -/
def parseHexWord (w : List Char) : Option Nat :=
  let negW : Bool × List Char :=
    match w with
    | '-' :: r => (true, r)
    | _ => (false, w)
  let w2 : List Char :=
    match negW.2 with
    | '0' :: 'x' :: r => r
    | '0' :: 'X' :: r => r
    | other => other
  match w2 with
  | [] => none
  | _ =>
    (hexDigitsValAux 0 w2).map
      (fun v => if negW.1 then (2 ^ 32 - v % 2 ^ 32) % 2 ^ 32 else v % 2 ^ 32)

/-- The extraction loop of `compile`: parse words until one fails. -/
def compileWords : List (List Char) → List Nat
  | [] => []
  | w :: ws =>
    match parseHexWord w with
    | some v => v :: compileWords ws
    | none => []

/-- `compile(ast)`: generate the program text and re-read it as a list of
`uint32_t` instructions; a non-program root is a bad cast (crash). -/
def compile (ast : Node) : Res (List Nat) :=
  match ast with
  | .programDecl _ sc =>
    (match compile_program sc with
     | .ok code => .ok (compileWords ((splitOnChar ' ' code).filter (fun w => w ≠ [])))
     | .err => .err
     | .crash => .crash
     | .fuel => .fuel)
  | _ => .crash

/-- Observable file operations of `safe_main`. -/
inductive FileOp where
  | openOut (name : List Char)
  | writeByte (b : Nat)
deriving DecidableEq

/-- The file behaviour of `safe_main` after the dump options: parse, then
OPEN the output `ofstream` (creating/truncating the file), then compile and
write each instruction's low byte.  A parse failure returns before the open;
a compile failure is only reached with the file already open. -/
def safeMainFromTokens (fuel : Nat) (tokens : List Token) (outname : List Char) :
    List FileOp × Res Unit :=
  match parse fuel tokens with
  | (.ok (some ast), _, _) =>
    (match compile ast with
     | .ok prog => (.openOut outname :: prog.map (fun i => .writeByte (i % 256)), .ok ())
     | .err => ([.openOut outname], .err)
     | .crash => ([.openOut outname], .crash)
     | .fuel => ([.openOut outname], .fuel))
  | (.ok none, _, _) => ([.openOut outname], .crash)
  | (.err, _, _) => ([], .err)
  | (.crash, _, _) => ([], .crash)
  | (.fuel, _, _) => ([], .fuel)

end XmlangCG
namespace XmlangParseFacts
open XUtil Xmlang

/-- Tokens of
`<program><function name="main" result="none"><call who="print"></call></function></program>`,
reversed. -/
def toksC8 : List Token := ([
  tk .LEFT_ANGLE "<" 0, tk .KEYWORD "program" 0, tk .RIGHT_ANGLE ">" 0,
  tk .LEFT_ANGLE "<" 1, tk .KEYWORD "function" 1,
  tk .IDENTIFIER "name" 1, tk .EQUAL "=" 1, tk .QUOTE "\"" 1, tk .LITERAL "main" 1, tk .QUOTE "\"" 1,
  tk .IDENTIFIER "result" 1, tk .EQUAL "=" 1, tk .QUOTE "\"" 1, tk .LITERAL "none" 1, tk .QUOTE "\"" 1,
  tk .RIGHT_ANGLE ">" 1,
  tk .LEFT_ANGLE "<" 2, tk .KEYWORD "call" 2,
  tk .IDENTIFIER "who" 2, tk .EQUAL "=" 2, tk .QUOTE "\"" 2, tk .LITERAL "print" 2, tk .QUOTE "\"" 2,
  tk .RIGHT_ANGLE ">" 2,
  tk .LEFT_ANGLE "<" 2, tk .SLASH "/" 2, tk .KEYWORD "call" 2, tk .RIGHT_ANGLE ">" 2,
  tk .LEFT_ANGLE "<" 1, tk .SLASH "/" 1, tk .KEYWORD "function" 1, tk .RIGHT_ANGLE ">" 1,
  tk .LEFT_ANGLE "<" 0, tk .SLASH "/" 0, tk .KEYWORD "program" 0, tk .RIGHT_ANGLE ">" 0]).reverse

/-- Tokens of
`<program><function name="main" result="none"></function></program>`, reversed. -/
def toksC8b : List Token := ([
  tk .LEFT_ANGLE "<" 0, tk .KEYWORD "program" 0, tk .RIGHT_ANGLE ">" 0,
  tk .LEFT_ANGLE "<" 1, tk .KEYWORD "function" 1,
  tk .IDENTIFIER "name" 1, tk .EQUAL "=" 1, tk .QUOTE "\"" 1, tk .LITERAL "main" 1, tk .QUOTE "\"" 1,
  tk .IDENTIFIER "result" 1, tk .EQUAL "=" 1, tk .QUOTE "\"" 1, tk .LITERAL "none" 1, tk .QUOTE "\"" 1,
  tk .RIGHT_ANGLE ">" 1,
  tk .LEFT_ANGLE "<" 1, tk .SLASH "/" 1, tk .KEYWORD "function" 1, tk .RIGHT_ANGLE ">" 1,
  tk .LEFT_ANGLE "<" 0, tk .SLASH "/" 0, tk .KEYWORD "program" 0, tk .RIGHT_ANGLE ">" 0]).reverse

end XmlangParseFacts

/-- C8: the xmlang driver's file discipline, as a trace of file operations.
If parsing fails, `safe_main` returns before touching the filesystem and no
output file is created.  But whenever parsing succeeds, `safe_main` opens
(creates or truncates) the output file BEFORE code generation runs, so the
claim's "opened and written only after the whole compilation has succeeded"
fails; only the byte WRITES are confined to successful compilations. -/
theorem safe_main_output_file_discipline :
    ∀ (fuel : Nat) (tokens : List Xmlang.Token) (outname : List Char),
      (∀ c' d',
        (Xmlang.parse fuel tokens = (.err, c', d') ∨
         Xmlang.parse fuel tokens = (.crash, c', d') ∨
         Xmlang.parse fuel tokens = (.fuel, c', d')) →
        (XmlangCG.safeMainFromTokens fuel tokens outname).1 = []) ∧
      (∀ ast c' d', Xmlang.parse fuel tokens = (.ok ast, c', d') →
        ∃ rest, (XmlangCG.safeMainFromTokens fuel tokens outname).1
          = .openOut outname :: rest) ∧
      ((XmlangCG.safeMainFromTokens fuel tokens outname).2 ≠ .ok () →
        ∀ b, XmlangCG.FileOp.writeByte b ∉
          (XmlangCG.safeMainFromTokens fuel tokens outname).1) := by
  intro fuel tokens outname
  rcases hp : Xmlang.parse fuel tokens with ⟨r, c0, d0⟩
  refine ⟨?_, ?_, ?_⟩
  · intro c' d' hcase
    rcases r with p | _ | _ | _
    · rcases hcase with h | h | h <;> exact absurd h (by simp)
    · simp [XmlangCG.safeMainFromTokens, hp]
    · simp [XmlangCG.safeMainFromTokens, hp]
    · simp [XmlangCG.safeMainFromTokens, hp]
  · intro ast c' d' h
    rcases r with p | _ | _ | _
    · rcases p with _ | a
      · exact ⟨[], by simp [XmlangCG.safeMainFromTokens, hp]⟩
      · rcases hc : XmlangCG.compile a with prog | _ | _ | _
        · exact ⟨prog.map (fun i => .writeByte (i % 256)),
            by simp [XmlangCG.safeMainFromTokens, hp, hc]⟩
        · exact ⟨[], by simp [XmlangCG.safeMainFromTokens, hp, hc]⟩
        · exact ⟨[], by simp [XmlangCG.safeMainFromTokens, hp, hc]⟩
        · exact ⟨[], by simp [XmlangCG.safeMainFromTokens, hp, hc]⟩
    · exact absurd h (by simp)
    · exact absurd h (by simp)
    · exact absurd h (by simp)
  · intro hne b hmem
    rcases r with p | _ | _ | _
    · rcases p with _ | a
      · simp [XmlangCG.safeMainFromTokens, hp] at hmem
      · rcases hc : XmlangCG.compile a with prog | _ | _ | _
        · exact hne (by simp [XmlangCG.safeMainFromTokens, hp, hc])
        · simp [XmlangCG.safeMainFromTokens, hp, hc] at hmem
        · simp [XmlangCG.safeMainFromTokens, hp, hc] at hmem
        · simp [XmlangCG.safeMainFromTokens, hp, hc] at hmem
    · simp [XmlangCG.safeMainFromTokens, hp] at hmem
    · simp [XmlangCG.safeMainFromTokens, hp] at hmem
    · simp [XmlangCG.safeMainFromTokens, hp] at hmem

theorem safe_main_output_file_discipline_witness :
    (XmlangCG.safeMainFromTokens 10 [] (XUtil.str "out.lmx")).1 = [] ∧
    (∃ rest, (XmlangCG.safeMainFromTokens 100 XmlangParseFacts.toksC8b
        (XUtil.str "out.lmx")).1
      = .openOut (XUtil.str "out.lmx") :: rest) ∧
    (XmlangCG.FileOp.writeByte 7 ∉
      (XmlangCG.safeMainFromTokens 100 XmlangParseFacts.toksC8
        (XUtil.str "out.lmx")).1) :=
  ⟨(safe_main_output_file_discipline 10 [] (XUtil.str "out.lmx")).1 (-1) ⟨[], []⟩
     (Or.inr (Or.inl (by rfl))),
   (safe_main_output_file_discipline 100 XmlangParseFacts.toksC8b
      (XUtil.str "out.lmx")).2.1
     (some (.programDecl (XmlangParseFacts.tk .KEYWORD "program" 0)
        [.functionDecl (XmlangParseFacts.tk .KEYWORD "function" 1)
           (XUtil.str "main") (XUtil.str "none") []
           [.returnStmt Xmlang.tokenDefault none],
         .callStmt Xmlang.tokenDefault (XUtil.str "main") []]))
     (-1) ⟨[], []⟩ (by rfl),
   (safe_main_output_file_discipline 100 XmlangParseFacts.toksC8
      (XUtil.str "out.lmx")).2.2 (by decide) 7⟩

/-- C8 counterexample: for
`<program><function name="main" result="none"><call who="print"></call></function></program>`
parsing succeeds and code generation fails (the `println`-only assert in
`compile_call`), yet `safe_main` has already opened — created or truncated —
`out.lmx` before compiling; the binary exists (empty) despite the failure. -/
theorem safe_main_counterexample :
    XmlangCG.safeMainFromTokens 100 XmlangParseFacts.toksC8 (XUtil.str "out.lmx")
      = ([.openOut (XUtil.str "out.lmx")], .crash) ∧
    ([XmlangCG.FileOp.openOut (XUtil.str "out.lmx")] : List XmlangCG.FileOp) ≠ [] :=
  ⟨rfl, by simp⟩
